import Mathlib

/-!
Verification development for the ai-ta teaching-assistant backend.

The Python sources under `backend/` are shallowly embedded as executable
Lean definitions:

* `backend/agent/date_utils.py` — natural-language date normalisation
  (`process_date_expression`);
* `backend/agent/handlers.py` — the datastore-backed action handlers
  (entity resolution, create/update/delete/publish flows);
* `backend/agent/grading_agent.py` — grading-result validation and the
  text-fallback parser;
* `backend/agent/elevenlabs_agent.py` — the knowledge-base push and the
  retrying agent-attachment step.

Datetimes are modelled as a record of a day number plus clock fields,
Python dicts as association lists over a small JSON value type, and the
relational store as lists of rows.  Network clients are modelled as direct
table access (row-level security is not part of the embedded code), and
fallible calls return `Option`/`Except` values.
-/

namespace AiTa

/-! ## Character and string helpers (models of Python `str` operations) -/

/-- Does `needle` match at the head of `hay`?  (Helper for substring search.) -/
def leadMatch : List Char → List Char → Bool
  | [], _ => true
  | _ :: _, [] => false
  | a :: as, b :: bs => a = b && leadMatch as bs

/-- `occursIn needle hay` models Python's `needle in hay` on strings. -/
def occursIn (needle : List Char) : List Char → Bool
  | [] => leadMatch needle []
  | c :: rest => leadMatch needle (c :: rest) || occursIn needle rest

/-- Substring test on `String`, models Python's `in` operator. -/
def strOccursIn (needle hay : String) : Bool :=
  occursIn needle.toList hay.toList

/-- Model of Python's per-character lowercasing (`str.lower`). -/
def pyLowerChar (c : Char) : Char :=
  if 'A' ≤ c ∧ c ≤ 'Z' then Char.ofNat (c.toNat + 32) else c

/-- Whitespace recognised by the model of Python's `str.strip`. -/
def isSpaceChar (c : Char) : Bool :=
  c = ' ' || c = '\t' || c = '\n' || c = '\r'

/-- Model of Python's `str.strip` (drop leading and trailing whitespace). -/
def pyStrip (l : List Char) : List Char :=
  ((l.dropWhile isSpaceChar).reverse.dropWhile isSpaceChar).reverse

/-- Decimal value of a digit string (used for the `in (\d+) days?` regex group). -/
def digitsVal (ds : List Char) : ℕ :=
  ds.foldl (fun a c => a * 10 + (c.toNat - '0'.toNat)) 0

/-! ## Datetime model

`days` counts calendar days from an arbitrary epoch whose day 0 is a
Monday (so `days % 7` is Python's `datetime.weekday()`); the clock fields
are the usual hour/minute/second.  `timedelta(days = n)` is `addDays`,
which leaves the clock fields untouched, exactly as for naive Python
datetimes. -/

structure DateTime where
  days : ℤ
  hour : ℕ
  minute : ℕ
  second : ℕ
deriving DecidableEq, Repr

/-- `t + timedelta(days = n)`. -/
def DateTime.addDays (t : DateTime) (n : ℤ) : DateTime :=
  { t with days := t.days + n }

/-- Python's `datetime.weekday()` (Monday = 0). -/
def DateTime.weekday (t : DateTime) : ℤ := t.days % 7

/-- Linearisation used to compare datetimes. -/
def DateTime.toSeconds (t : DateTime) : ℤ :=
  ((t.days * 24 + (t.hour : ℤ)) * 60 + (t.minute : ℤ)) * 60 + (t.second : ℤ)

/-- `t.replace(hour=23, minute=59, second=59)`. -/
def endOfDay (t : DateTime) : DateTime :=
  { t with hour := 23, minute := 59, second := 59 }

/-! ## `date_utils.process_date_expression` -/

/-- One position of the regex `in (\d+) days?`: try to match at the head of
the list and return the captured number. -/
def matchInDaysAt : List Char → Option ℕ
  | 'i' :: 'n' :: ' ' :: rest =>
    let ds := rest.takeWhile Char.isDigit
    if ds = [] then none
    else
      match rest.dropWhile Char.isDigit with
      | ' ' :: 'd' :: 'a' :: 'y' :: _ => some (digitsVal ds)
      | _ => none
  | _ => none

/-- `re.search(r'in (\d+) days?', e)`: first position where the pattern
matches. -/
def searchInDays : List Char → Option ℕ
  | [] => none
  | c :: rest =>
    match matchInDaysAt (c :: rest) with
    | some n => some n
    | none => searchInDays rest

/-- The `next <weekday>` computation of `process_date_expression`:
`days_ahead = d - now.weekday(); if days_ahead <= 0: days_ahead += 7`. -/
def nextWeekdayTarget (now : DateTime) (d : ℤ) : DateTime :=
  now.addDays (if d - now.weekday ≤ 0 then d - now.weekday + 7 else d - now.weekday)

/-- `date_expression.lower().strip()` applied to the input. -/
def cleanExpr (input : String) : List Char :=
  pyStrip (input.toList.map pyLowerChar)

/-- The built-in pattern cascade of `process_date_expression`, applied to the
cleaned expression.  `none` means control falls through to the
general-purpose `dateutil` parser (both from the final `else` and from the
`in … day` branch whose regex fails). -/
def builtinTarget (e : List Char) (now : DateTime) : Option DateTime :=
  if e = "tomorrow".toList then some (now.addDays 1)
  else if e = "today".toList then some now
  else if e = "next week".toList then some (now.addDays 7)
  else if occursIn "next monday".toList e then some (nextWeekdayTarget now 0)
  else if occursIn "next tuesday".toList e then some (nextWeekdayTarget now 1)
  else if occursIn "next wednesday".toList e then some (nextWeekdayTarget now 2)
  else if occursIn "next thursday".toList e then some (nextWeekdayTarget now 3)
  else if occursIn "next friday".toList e then some (nextWeekdayTarget now 4)
  else if occursIn "next saturday".toList e then some (nextWeekdayTarget now 5)
  else if occursIn "next sunday".toList e then some (nextWeekdayTarget now 6)
  else if occursIn "in".toList e && occursIn "day".toList e then
    match searchInDays e with
    | some n => some (now.addDays (n : ℤ))
    | none => none
  else none

/-- `if target.hour == 0 and target.minute == 0 and target.second == 0:
replace with 23:59:59` (end-of-day due-date convention). -/
def normalizeTime (t : DateTime) : DateTime :=
  if t.hour = 0 ∧ t.minute = 0 ∧ t.second = 0 then endOfDay t else t

/-- Embedding of `process_date_expression`.  `parse` models
`dateutil.parser.parse` on the cleaned expression, returning `none` when the
parser raises; the surrounding `try/except` turns any failure into the
"tomorrow end-of-day" fallback, so the embedded function is total. -/
def processDateExpression (parse : List Char → Option DateTime)
    (input : String) (now : DateTime) : DateTime :=
  match builtinTarget (cleanExpr input) now with
  | some t => normalizeTime t
  | none =>
    match parse (cleanExpr input) with
    | some t => normalizeTime t
    | none => endOfDay (now.addDays 1)

/-! ## Supporting lemmas for the date normaliser -/

theorem toSeconds_addDays (t : DateTime) (k : ℤ) :
    (t.addDays k).toSeconds = t.toSeconds + k * 86400 := by
  simp only [DateTime.addDays, DateTime.toSeconds]
  ring

/-- Core fact: adding `k ≥ 1` days and then applying the midnight
normalisation yields a strictly later timestamp whose seconds component is
59 exactly when the starting clock read midnight (and is the starting
seconds otherwise). -/
theorem normalize_addDays_key (now : DateTime) (k : ℤ) (hk : 1 ≤ k) :
    now.toSeconds < (normalizeTime (now.addDays k)).toSeconds ∧
    (normalizeTime (now.addDays k)).second =
      (if now.hour = 0 ∧ now.minute = 0 ∧ now.second = 0 then 59 else now.second) := by
  have h86 : 86400 ≤ k * 86400 := by nlinarith
  by_cases hmid : now.hour = 0 ∧ now.minute = 0 ∧ now.second = 0
  · obtain ⟨h1, h2, h3⟩ := hmid
    simp only [normalizeTime, DateTime.addDays, endOfDay, h1, h2, h3, and_self, if_true,
      DateTime.toSeconds]
    refine ⟨by push_cast; nlinarith, by trivial⟩
  · have hmid' : ¬((now.addDays k).hour = 0 ∧ (now.addDays k).minute = 0 ∧
        (now.addDays k).second = 0) := by
      simpa [DateTime.addDays] using hmid
    simp only [normalizeTime, hmid', if_neg, hmid, if_false, toSeconds_addDays]
    exact ⟨by nlinarith, rfl⟩

theorem dropWhile_cons_of_neg {p : Char → Bool} {a : Char} {l : List Char}
    (h : p a = false) : List.dropWhile p (a :: l) = a :: l := by
  simp [List.dropWhile_cons, h]

theorem pyStrip_eq_self {l : List Char}
    (h1 : ∀ c, l.head? = some c → isSpaceChar c = false)
    (h2 : ∀ c, l.getLast? = some c → isSpaceChar c = false) :
    pyStrip l = l := by
  unfold pyStrip
  cases l with
  | nil => rfl
  | cons a rest =>
    rw [dropWhile_cons_of_neg (h1 a rfl)]
    rcases hrev : (a :: rest).reverse with _ | ⟨c, t⟩
    · have := congrArg List.reverse hrev
      simp at this
    · have hc : (a :: rest).getLast? = some c := by
        rw [← List.head?_reverse, hrev]; rfl
      rw [dropWhile_cons_of_neg (h2 c hc), ← hrev, List.reverse_reverse]

theorem mem_of_leadMatch {n : List Char} :
    ∀ {h : List Char}, leadMatch n h = true → ∀ c ∈ n, c ∈ h := by
  induction n with
  | nil => intro h _ c hc; simp at hc
  | cons a as ih =>
    intro h hm c hc
    cases h with
    | nil => simp [leadMatch] at hm
    | cons b bs =>
      simp only [leadMatch, Bool.and_eq_true, decide_eq_true_eq] at hm
      obtain ⟨rfl, hrest⟩ := hm
      rcases List.mem_cons.mp hc with rfl | hc
      · exact List.mem_cons_self _ _
      · exact List.mem_cons_of_mem _ (ih hrest c hc)

theorem mem_of_occursIn {n : List Char} :
    ∀ {h : List Char}, occursIn n h = true → ∀ c ∈ n, c ∈ h := by
  intro h
  induction h with
  | nil =>
    intro ho c hc
    cases n with
    | nil => simp at hc
    | cons a as => simp [occursIn, leadMatch] at ho
  | cons b bs ih =>
    intro ho c hc
    simp only [occursIn, Bool.or_eq_true] at ho
    rcases ho with ho | ho
    · exact mem_of_leadMatch ho c hc
    · exact List.mem_cons_of_mem _ (ih ho c hc)

theorem not_occursIn_of_missing {n h : List Char} {c : Char}
    (hcn : c ∈ n) (hch : c ∉ h) : ¬ occursIn n h = true :=
  fun ho => hch (mem_of_occursIn ho c hcn)

theorem occursIn_cons_of_tail {n : List Char} (c : Char) {rest : List Char}
    (h : occursIn n rest = true) : occursIn n (c :: rest) = true := by
  simp [occursIn, h]

theorem occursIn_append_right {n t : List Char} (h : occursIn n t = true) :
    ∀ s : List Char, occursIn n (s ++ t) = true := by
  intro s
  induction s with
  | nil => simpa using h
  | cons c cs ih => exact occursIn_cons_of_tail c ih

theorem takeWhile_digits (ds : List Char) (hds : ∀ c ∈ ds, c.isDigit = true)
    (rest : List Char) :
    (ds ++ ' ' :: rest).takeWhile Char.isDigit = ds := by
  induction ds with
  | nil => simp [List.takeWhile_cons]
  | cons c cs ih =>
    have hc := hds c (List.mem_cons_self _ _)
    simp only [List.cons_append, List.takeWhile_cons, hc, if_true]
    rw [ih (fun d hd => hds d (List.mem_cons_of_mem _ hd))]

theorem dropWhile_digits (ds : List Char) (hds : ∀ c ∈ ds, c.isDigit = true)
    (rest : List Char) :
    (ds ++ ' ' :: rest).dropWhile Char.isDigit = ' ' :: rest := by
  induction ds with
  | nil => simp [List.dropWhile_cons]
  | cons c cs ih =>
    have hc := hds c (List.mem_cons_self _ _)
    simp only [List.cons_append, List.dropWhile_cons, hc, if_true]
    exact ih (fun d hd => hds d (List.mem_cons_of_mem _ hd))

theorem pyLowerChar_of_digit {c : Char} (h : c.isDigit = true) :
    pyLowerChar c = c := by
  unfold pyLowerChar
  rw [if_neg]
  rintro ⟨hA, -⟩
  simp only [Char.isDigit, Bool.and_eq_true, decide_eq_true_eq] at h
  obtain ⟨-, h9⟩ := h
  rw [Char.le_def] at hA
  simp only [UInt32.le_def] at hA h9
  exact absurd (Fin.le_trans hA h9) (by decide)

theorem processDateExpression_eq_of_builtin {parse : List Char → Option DateTime}
    {input : String} {now t : DateTime}
    (hb : builtinTarget (cleanExpr input) now = some t) :
    processDateExpression parse input now = normalizeTime t := by
  unfold processDateExpression
  rw [hb]

/-- The expression `"next <weekday>"`, Monday first (matching the branch
order in `process_date_expression`). -/
def nextWeekdayName (d : Fin 7) : String :=
  if d.1 = 0 then "next monday"
  else if d.1 = 1 then "next tuesday"
  else if d.1 = 2 then "next wednesday"
  else if d.1 = 3 then "next thursday"
  else if d.1 = 4 then "next friday"
  else if d.1 = 5 then "next saturday"
  else "next sunday"

/-- The input shapes named by the claim: `"tomorrow"`, `"next <weekday>"`,
and `"in N days"` (with `N` written as a non-empty digit string). -/
def ValidRelativeInput (input : String) : Prop :=
  input = "tomorrow" ∨
  (∃ d : Fin 7, input = nextWeekdayName d) ∨
  (∃ ds : List Char, ds ≠ [] ∧ (∀ c ∈ ds, c.isDigit = true) ∧ 1 ≤ digitsVal ds ∧
    input.toList = "in ".toList ++ ds ++ " days".toList)

theorem weekday_case (now : DateTime) (d : ℤ) (hd0 : 0 ≤ d) (hd6 : d ≤ 6) :
    now.toSeconds < (normalizeTime (nextWeekdayTarget now d)).toSeconds ∧
    (normalizeTime (nextWeekdayTarget now d)).second =
      (if now.hour = 0 ∧ now.minute = 0 ∧ now.second = 0 then 59 else now.second) := by
  have hwd0 : 0 ≤ now.weekday := Int.emod_nonneg _ (by norm_num)
  have hwd7 : now.weekday < 7 := Int.emod_lt_of_pos _ (by norm_num)
  unfold nextWeekdayTarget
  exact normalize_addDays_key now _ (by split <;> omega)

theorem cleanExpr_inDays (input : String) (ds : List Char)
    (hdig : ∀ c ∈ ds, c.isDigit = true)
    (htl : input.toList = "in ".toList ++ ds ++ " days".toList) :
    cleanExpr input = 'i' :: 'n' :: ' ' :: (ds ++ (' ' :: 'd' :: 'a' :: 'y' :: 's' :: [])) := by
  have hmapds : ds.map pyLowerChar = ds := by
    have h := List.map_congr_left (fun c hc => pyLowerChar_of_digit (hdig c hc))
    simpa using h
  unfold cleanExpr
  rw [htl, List.map_append, List.map_append, hmapds,
    show ("in ".toList.map pyLowerChar) = "in ".toList from by decide,
    show (" days".toList.map pyLowerChar) = " days".toList from by decide]
  have hself : pyStrip ("in ".toList ++ ds ++ " days".toList)
      = "in ".toList ++ ds ++ " days".toList := by
    apply pyStrip_eq_self
    · intro c hc
      have : c = 'i' := by
        simpa using hc.symm
      subst this; decide
    · intro c hc
      rw [← List.head?_reverse, List.reverse_append] at hc
      have : c = 's' := by
        simpa using hc.symm
      subst this; decide
  rw [hself]
  rfl

theorem builtinTarget_inDays (now : DateTime) (ds : List Char) (hne : ds ≠ [])
    (hdig : ∀ c ∈ ds, c.isDigit = true) :
    builtinTarget ('i' :: 'n' :: ' ' :: (ds ++ (' ' :: 'd' :: 'a' :: 'y' :: 's' :: []))) now
      = some (now.addDays ((digitsVal ds : ℤ))) := by
  have hxe : 'x' ∉ ('i' :: 'n' :: ' ' :: (ds ++ (' ' :: 'd' :: 'a' :: 'y' :: 's' :: []))) := by
    intro hmem
    simp only [List.mem_cons, List.mem_append] at hmem
    rcases hmem with h | h | h | (h | h)
    · exact absurd h (by decide)
    · exact absurd h (by decide)
    · exact absurd h (by decide)
    · exact absurd (hdig _ h) (by decide)
    · exact absurd h (by decide)
  have hm : matchInDaysAt ('i' :: 'n' :: ' ' :: (ds ++ (' ' :: 'd' :: 'a' :: 'y' :: 's' :: [])))
      = some (digitsVal ds) := by
    rw [show matchInDaysAt ('i' :: 'n' :: ' ' :: (ds ++ (' ' :: 'd' :: 'a' :: 'y' :: 's' :: [])))
        = (if (ds ++ (' ' :: 'd' :: 'a' :: 'y' :: 's' :: [])).takeWhile Char.isDigit = []
           then none
           else
             match (ds ++ (' ' :: 'd' :: 'a' :: 'y' :: 's' :: [])).dropWhile Char.isDigit with
             | ' ' :: 'd' :: 'a' :: 'y' :: _ =>
               some (digitsVal ((ds ++ (' ' :: 'd' :: 'a' :: 'y' :: 's' :: [])).takeWhile
                 Char.isDigit))
             | _ => none) from rfl,
      takeWhile_digits ds hdig _, dropWhile_digits ds hdig _, if_neg hne]
    rfl
  have hsearch : searchInDays ('i' :: 'n' :: ' ' :: (ds ++ (' ' :: 'd' :: 'a' :: 'y' :: 's' :: [])))
      = some (digitsVal ds) := by
    rw [show searchInDays ('i' :: 'n' :: ' ' :: (ds ++ (' ' :: 'd' :: 'a' :: 'y' :: 's' :: [])))
        = (match matchInDaysAt ('i' :: 'n' :: ' ' :: (ds ++ (' ' :: 'd' :: 'a' :: 'y' :: 's' :: [])))
           with
           | some n => some n
           | none => searchInDays ('n' :: ' ' :: (ds ++ (' ' :: 'd' :: 'a' :: 'y' :: 's' :: []))))
        from rfl, hm]
  have hday : occursIn "day".toList (ds ++ (' ' :: 'd' :: 'a' :: 'y' :: 's' :: [])) = true :=
    occursIn_append_right (by decide) ds
  have hin : (occursIn "in".toList
        ('i' :: 'n' :: ' ' :: (ds ++ (' ' :: 'd' :: 'a' :: 'y' :: 's' :: []))) &&
      occursIn "day".toList
        ('i' :: 'n' :: ' ' :: (ds ++ (' ' :: 'd' :: 'a' :: 'y' :: 's' :: [])))) = true := by
    rw [Bool.and_eq_true]
    exact ⟨rfl, occursIn_cons_of_tail _ (occursIn_cons_of_tail _ (occursIn_cons_of_tail _ hday))⟩
  unfold builtinTarget
  rw [if_neg (by intro h; injection h with h1; exact absurd h1 (by decide)),
    if_neg (by intro h; injection h with h1; exact absurd h1 (by decide)),
    if_neg (by intro h; injection h with h1; exact absurd h1 (by decide)),
    if_neg (not_occursIn_of_missing (c := 'x') (by decide) hxe),
    if_neg (not_occursIn_of_missing (c := 'x') (by decide) hxe),
    if_neg (not_occursIn_of_missing (c := 'x') (by decide) hxe),
    if_neg (not_occursIn_of_missing (c := 'x') (by decide) hxe),
    if_neg (not_occursIn_of_missing (c := 'x') (by decide) hxe),
    if_neg (not_occursIn_of_missing (c := 'x') (by decide) hxe),
    if_neg (not_occursIn_of_missing (c := 'x') (by decide) hxe),
    if_pos hin, hsearch]

/-- C2 (counterexample).  The claim says every "tomorrow" / "next
<weekday>" / "in N days" input yields a strictly future timestamp whose
seconds component is 59 when no explicit time of day is given.  At call
time 10:30:15, the input "tomorrow" (which names no time of day) returns a
timestamp with seconds component 15, because the code only rewrites the
clock to 23:59:59 when the computed time is exactly midnight; and the input
"in 0 days" returns the call time itself, which is not strictly later. -/
theorem C2_counterexample :
    (processDateExpression (fun _ => none) "tomorrow" ⟨0, 10, 30, 15⟩).second = 15 ∧
    processDateExpression (fun _ => none) "in 0 days" ⟨0, 10, 30, 15⟩ = ⟨0, 10, 30, 15⟩ := by
  decide

/-- C2 (amended).  For every call time, inputs "tomorrow", "next
<weekday>", and "in N days" with N ≥ 1 yield a timestamp strictly later
than the call time; the returned timestamp's seconds component is 59 when
the call time's clock reads exactly midnight (end-of-day normalisation) and
equals the call time's seconds component otherwise. -/
theorem C2_process_date_future (parse : List Char → Option DateTime) (input : String)
    (now : DateTime) (h : ValidRelativeInput input) :
    now.toSeconds < (processDateExpression parse input now).toSeconds ∧
    (processDateExpression parse input now).second =
      (if now.hour = 0 ∧ now.minute = 0 ∧ now.second = 0 then 59 else now.second) := by
  rcases h with rfl | ⟨d, rfl⟩ | ⟨ds, hne, hdig, hval, htl⟩
  · have hb : builtinTarget (cleanExpr "tomorrow") now = some (now.addDays 1) := by rfl
    rw [processDateExpression_eq_of_builtin hb]
    exact normalize_addDays_key now 1 le_rfl
  · fin_cases d
    · have hb : builtinTarget (cleanExpr (nextWeekdayName ⟨0, by omega⟩)) now
          = some (nextWeekdayTarget now 0) := by rfl
      rw [processDateExpression_eq_of_builtin hb]
      exact weekday_case now 0 (by norm_num) (by norm_num)
    · have hb : builtinTarget (cleanExpr (nextWeekdayName ⟨1, by omega⟩)) now
          = some (nextWeekdayTarget now 1) := by rfl
      rw [processDateExpression_eq_of_builtin hb]
      exact weekday_case now 1 (by norm_num) (by norm_num)
    · have hb : builtinTarget (cleanExpr (nextWeekdayName ⟨2, by omega⟩)) now
          = some (nextWeekdayTarget now 2) := by rfl
      rw [processDateExpression_eq_of_builtin hb]
      exact weekday_case now 2 (by norm_num) (by norm_num)
    · have hb : builtinTarget (cleanExpr (nextWeekdayName ⟨3, by omega⟩)) now
          = some (nextWeekdayTarget now 3) := by rfl
      rw [processDateExpression_eq_of_builtin hb]
      exact weekday_case now 3 (by norm_num) (by norm_num)
    · have hb : builtinTarget (cleanExpr (nextWeekdayName ⟨4, by omega⟩)) now
          = some (nextWeekdayTarget now 4) := by rfl
      rw [processDateExpression_eq_of_builtin hb]
      exact weekday_case now 4 (by norm_num) (by norm_num)
    · have hb : builtinTarget (cleanExpr (nextWeekdayName ⟨5, by omega⟩)) now
          = some (nextWeekdayTarget now 5) := by rfl
      rw [processDateExpression_eq_of_builtin hb]
      exact weekday_case now 5 (by norm_num) (by norm_num)
    · have hb : builtinTarget (cleanExpr (nextWeekdayName ⟨6, by omega⟩)) now
          = some (nextWeekdayTarget now 6) := by rfl
      rw [processDateExpression_eq_of_builtin hb]
      exact weekday_case now 6 (by norm_num) (by norm_num)
  · have he := cleanExpr_inDays input ds hdig htl
    rw [processDateExpression_eq_of_builtin (t := now.addDays ((digitsVal ds : ℤ)))
      (by rw [he]; exact builtinTarget_inDays now ds hne hdig)]
    exact normalize_addDays_key now _ (by exact_mod_cast hval)

/-- C2 (witness): the amended theorem applied to the input "in 3 days" at
call time 10:30:15 on day 0. -/
theorem C2_witness :
    ValidRelativeInput "in 3 days" ∧
    ((⟨0, 10, 30, 15⟩ : DateTime).toSeconds <
        (processDateExpression (fun _ => none) "in 3 days" ⟨0, 10, 30, 15⟩).toSeconds ∧
      (processDateExpression (fun _ => none) "in 3 days" ⟨0, 10, 30, 15⟩).second =
        (if (⟨0, 10, 30, 15⟩ : DateTime).hour = 0 ∧ (⟨0, 10, 30, 15⟩ : DateTime).minute = 0 ∧
            (⟨0, 10, 30, 15⟩ : DateTime).second = 0 then 59
         else (⟨0, 10, 30, 15⟩ : DateTime).second)) := by
  have hv : ValidRelativeInput "in 3 days" :=
    Or.inr (Or.inr ⟨['3'], by decide, by decide, by decide, by decide⟩)
  exact ⟨hv, C2_process_date_future (fun _ => none) "in 3 days" ⟨0, 10, 30, 15⟩ hv⟩

/-- C9: on any input where the built-in patterns yield nothing and the
general-purpose parser fails, `process_date_expression` returns the
fallback — the next calendar day at 23:59:59 relative to the call time —
instead of raising. -/
theorem C9_parse_failure_fallback (parse : List Char → Option DateTime) (input : String)
    (now : DateTime) (hb : builtinTarget (cleanExpr input) now = none)
    (hp : parse (cleanExpr input) = none) :
    processDateExpression parse input now = endOfDay (now.addDays 1) := by
  unfold processDateExpression
  rw [hb, hp]

/-- C9 (witness): the fallback theorem applied to the unparseable input
"gibberish" with an always-failing general-purpose parser. -/
theorem C9_witness :
    builtinTarget (cleanExpr "gibberish") ⟨0, 0, 0, 0⟩ = none ∧
    processDateExpression (fun _ => none) "gibberish" ⟨0, 0, 0, 0⟩ =
      endOfDay ((⟨0, 0, 0, 0⟩ : DateTime).addDays 1) :=
  ⟨by decide,
    C9_parse_failure_fallback (fun _ => none) "gibberish" ⟨0, 0, 0, 0⟩ (by decide) rfl⟩

/-! ## JSON-ish values: the model of the Python dicts flowing through the code -/

inductive J where
  | null : J
  | bool : Bool → J
  | num : ℚ → J
  | str : String → J
  | arr : List J → J
  | obj : List (String × J) → J

/-- `d.get(k)` on a dict modelled as an insertion-ordered association list. -/
def jGet (l : List (String × J)) (k : String) : Option J :=
  match l with
  | [] => none
  | (k', v) :: rest => if k' = k then some v else jGet rest k

/-- `k in d`. -/
def jHasKey (l : List (String × J)) (k : String) : Bool :=
  (jGet l k).isSome

/-- `d[k] = v`: replace in place when the key exists (Python dicts keep
insertion order), otherwise append. -/
def jSet (l : List (String × J)) (k : String) (v : J) : List (String × J) :=
  match l with
  | [] => [(k, v)]
  | (k', v') :: rest => if k' = k then (k', v) :: rest else (k', v') :: jSet rest k v

/-- `if k not in d: d[k] = v`. -/
def setIfMissing (l : List (String × J)) (k : String) (v : J) : List (String × J) :=
  if jHasKey l k then l else jSet l k v

/-- Key lookup through a `J.obj` value (`none` on other shapes). -/
def jGetOpt (j : J) (k : String) : Option J :=
  match j with
  | J.obj o => jGet o k
  | _ => none

def jHasKeyOpt (j : J) (k : String) : Bool :=
  (jGetOpt j k).isSome

/-- Python truthiness of a value (`if x:`). -/
def truthy : J → Bool
  | J.null => false
  | J.bool b => b
  | J.num q => decide (q ≠ 0)
  | J.str s => decide (s ≠ "")
  | J.arr l => !l.isEmpty
  | J.obj l => !l.isEmpty

/-- Python's `x or y` on optional dict values (`params.get(k)` chains):
`None` and falsy values fall through to the right operand. -/
def pyOr (a b : Option J) : Option J :=
  match a with
  | some v => if truthy v then some v else b
  | none => b

theorem jGet_jSet_self (l : List (String × J)) (k : String) (v : J) :
    jGet (jSet l k v) k = some v := by
  induction l with
  | nil => simp [jSet, jGet]
  | cons p rest ih =>
    obtain ⟨k', v'⟩ := p
    by_cases h : k' = k
    · subst h; simp [jSet, jGet]
    · simp [jSet, jGet, h, ih]

theorem jGet_jSet_other (l : List (String × J)) {k k' : String} (v : J) (h : k' ≠ k) :
    jGet (jSet l k' v) k = jGet l k := by
  induction l with
  | nil => simp [jSet, jGet, h]
  | cons p rest ih =>
    obtain ⟨k0, v0⟩ := p
    by_cases h0 : k0 = k'
    · subst h0; simp [jSet, jGet, h]
    · simp [jSet, jGet, h0, ih]

theorem jHasKey_setIfMissing_self (l : List (String × J)) (k : String) (v : J) :
    jHasKey (setIfMissing l k v) k = true := by
  unfold setIfMissing
  split
  · assumption
  · simp [jHasKey, jGet_jSet_self]

theorem jHasKey_setIfMissing_of {l : List (String × J)} {k : String} (k' : String) (v : J)
    (h : jHasKey l k = true) : jHasKey (setIfMissing l k' v) k = true := by
  unfold setIfMissing
  split
  · exact h
  · by_cases hk : k' = k
    · subst hk; simp [jHasKey, jGet_jSet_self]
    · simpa [jHasKey, jGet_jSet_other _ _ hk] using h

/-! ## `grading_agent.py`: result validation and the text fallback -/

/-- Round half to even at integer precision (the idealised semantics of
Python's `round`). -/
def roundHalfEven (q : ℚ) : ℤ :=
  if q - ⌊q⌋ < 1/2 then ⌊q⌋
  else if q - ⌊q⌋ > 1/2 then ⌊q⌋ + 1
  else if ⌊q⌋ % 2 = 0 then ⌊q⌋ else ⌊q⌋ + 1

/-- `round(q, 1)`. -/
def pyRound1 (q : ℚ) : ℚ := (roundHalfEven (q * 10) : ℚ) / 10

/-- Default confidence filled in by the JSON validation path. -/
def jsonDefaultConfidence : ℚ := 8/10

/-- Confidence reported by the text-parsing fallback path. -/
def fallbackConfidence : ℚ := 6/10

/-- `if grade > max_points: grade = max_points elif grade < 0: grade = 0`. -/
def clampGrade (g0 maxPoints : ℚ) : ℚ :=
  if g0 > maxPoints then maxPoints else if g0 < 0 then 0 else g0

/-- The five `feedback` sub-field defaults of `_validate_grading_result`. -/
def fillFeedback (fb : List (String × J)) : List (String × J) :=
  setIfMissing (setIfMissing (setIfMissing (setIfMissing (setIfMissing fb
    "overall" (J.str "Grade provided without detailed feedback."))
    "strengths" (J.arr []))
    "areas_for_improvement" (J.arr []))
    "missing_elements" (J.arr []))
    "specific_comments" (J.arr [])

/-- Per-entry defaults for `rubric_breakdown`; a non-dict entry makes the
Python loop raise, modelled as `none`. -/
def fillBreakdown (b : J) : Option J :=
  match b with
  | J.obj e =>
    some (J.obj (setIfMissing (setIfMissing e
      "found_in_submission" (J.bool true))
      "quality_assessment" (J.str "Assessment not provided")))
  | _ => none

def fillBreakdowns : List J → Option (List J)
  | [] => some []
  | b :: rest =>
    match fillBreakdown b, fillBreakdowns rest with
    | some b2, some rest2 => some (b2 :: rest2)
    | _, _ => none

/-- `if "confidence_level" not in result or not (0 <= … <= 1): … = 0.8`;
a present non-numeric value makes the chained comparison raise (`none`). -/
def confidenceStep (r : List (String × J)) : Option (List (String × J)) :=
  match jGet r "confidence_level" with
  | none => some (jSet r "confidence_level" (J.num jsonDefaultConfidence))
  | some (J.num c) =>
    if 0 ≤ c ∧ c ≤ 1 then some r
    else some (jSet r "confidence_level" (J.num jsonDefaultConfidence))
  | some _ => none

/-- Lines 245–253 of `grading_agent.py`: read `result.get("grade", 0)`,
clamp it, store the clamped grade and the recomputed percentage.  `none`
models the raises: a non-numeric grade (`TypeError` in the comparisons) or
`max_points == 0` (`ZeroDivisionError` in the percentage). -/
def gradeStep (result : List (String × J)) (maxPoints : ℚ) :
    Option (List (String × J)) :=
  match (jGet result "grade").getD (J.num 0) with
  | J.num g0 =>
    if maxPoints = 0 then none
    else
      some (jSet (jSet result "grade" (J.num (clampGrade g0 maxPoints))) "percentage"
        (J.num (pyRound1 (clampGrade g0 maxPoints / maxPoints * 100))))
  | _ => none

/-- The feedback-defaulting block: an absent `feedback` becomes `{}`, then
the five sub-fields are filled; a non-dict value raises (`none`). -/
def feedbackStep (r : List (String × J)) : Option (List (String × J)) :=
  match (jGet r "feedback").getD (J.obj []) with
  | J.obj fb => some (jSet r "feedback" (J.obj (fillFeedback fb)))
  | _ => none

/-- The rubric-breakdown block: an absent list becomes `[]`, each entry is
defaulted; non-list values or non-dict entries raise (`none`). -/
def breakdownStep (r : List (String × J)) : Option (List (String × J)) :=
  match (jGet r "rubric_breakdown").getD (J.arr []) with
  | J.arr entries =>
    match fillBreakdowns entries with
    | some entries2 => some (jSet r "rubric_breakdown" (J.arr entries2))
    | none => none
  | _ => none

/-- Embedding of `GradingAgent._validate_grading_result`: the mutation
sequence of the Python function, `none` whenever it raises. -/
def validateGradingResult (result : List (String × J)) (maxPoints : ℚ) :
    Option (List (String × J)) :=
  (gradeStep result maxPoints).bind fun r1 =>
    (feedbackStep r1).bind fun r2 =>
      (breakdownStep r2).bind fun r3 =>
        (confidenceStep r3).map fun r4 => setIfMissing r4 "recommendations" (J.arr [])

theorem jGet_setIfMissing_other (l : List (String × J)) {k k' : String} (v : J)
    (h : k' ≠ k) : jGet (setIfMissing l k' v) k = jGet l k := by
  unfold setIfMissing
  split
  · rfl
  · exact jGet_jSet_other _ _ h

theorem fillFeedback_keys (fb : List (String × J)) :
    jHasKey (fillFeedback fb) "overall" = true ∧
    jHasKey (fillFeedback fb) "strengths" = true ∧
    jHasKey (fillFeedback fb) "areas_for_improvement" = true ∧
    jHasKey (fillFeedback fb) "missing_elements" = true ∧
    jHasKey (fillFeedback fb) "specific_comments" = true := by
  unfold fillFeedback
  refine ⟨?_, ?_, ?_, ?_, ?_⟩
  · exact jHasKey_setIfMissing_of _ _ (jHasKey_setIfMissing_of _ _
      (jHasKey_setIfMissing_of _ _ (jHasKey_setIfMissing_of _ _
        (jHasKey_setIfMissing_self _ _ _))))
  · exact jHasKey_setIfMissing_of _ _ (jHasKey_setIfMissing_of _ _
      (jHasKey_setIfMissing_of _ _ (jHasKey_setIfMissing_self _ _ _)))
  · exact jHasKey_setIfMissing_of _ _ (jHasKey_setIfMissing_of _ _
      (jHasKey_setIfMissing_self _ _ _))
  · exact jHasKey_setIfMissing_of _ _ (jHasKey_setIfMissing_self _ _ _)
  · exact jHasKey_setIfMissing_self _ _ _

theorem fillBreakdowns_total {es : List J} (h : ∀ b ∈ es, ∃ eo, b = J.obj eo) :
    ∃ es2, fillBreakdowns es = some es2 := by
  induction es with
  | nil => exact ⟨[], rfl⟩
  | cons b rest ih =>
    obtain ⟨eo, rfl⟩ := h b (List.mem_cons_self _ _)
    obtain ⟨rest2, hrest⟩ := ih (fun x hx => h x (List.mem_cons_of_mem _ hx))
    refine ⟨J.obj (setIfMissing (setIfMissing eo "found_in_submission" (J.bool true))
      "quality_assessment" (J.str "Assessment not provided")) :: rest2, ?_⟩
    simp [fillBreakdowns, fillBreakdown, hrest]

theorem confidenceStep_sound {r : List (String × J)}
    (hc : ∀ v, jGet r "confidence_level" = some v → ∃ q, v = J.num q) :
    ∃ r4, confidenceStep r = some r4 ∧ jHasKey r4 "confidence_level" = true ∧
      (∀ k, k ≠ "confidence_level" → jGet r4 k = jGet r k) := by
  unfold confidenceStep
  cases hv : jGet r "confidence_level" with
  | none =>
    exact ⟨_, rfl, by simp [jHasKey, jGet_jSet_self],
      fun k hk => jGet_jSet_other _ _ (Ne.symm hk)⟩
  | some v =>
    obtain ⟨q, rfl⟩ := hc v hv
    by_cases hq : 0 ≤ q ∧ q ≤ 1
    · exact ⟨r, by simp [hq], by simp [jHasKey, hv], fun k hk => rfl⟩
    · exact ⟨jSet r "confidence_level" (J.num jsonDefaultConfidence), by simp [hq],
        by simp [jHasKey, jGet_jSet_self],
        fun k hk => jGet_jSet_other _ _ (Ne.symm hk)⟩

/-- C5: after `_validate_grading_result` with `max_points > 0` (and the
well-typed field shapes that the Python code requires in order not to
raise), the stored grade is the clamp of the incoming grade into
`[0, max_points]`, the percentage equals `round(grade/max_points*100, 1)`
recomputed from the clamped grade, and all feedback sub-fields,
`rubric_breakdown`, `confidence_level`, and `recommendations` are present
in the result. -/
theorem C5_validate_grading_result (result : List (String × J)) (maxPoints : ℚ)
    (hmax : 0 < maxPoints)
    (hg : ∀ v, jGet result "grade" = some v → ∃ q, v = J.num q)
    (hf : ∀ v, jGet result "feedback" = some v → ∃ o, v = J.obj o)
    (hrb : ∀ v, jGet result "rubric_breakdown" = some v →
      ∃ es, v = J.arr es ∧ ∀ b ∈ es, ∃ eo, b = J.obj eo)
    (hc : ∀ v, jGet result "confidence_level" = some v → ∃ q, v = J.num q) :
    ∃ out g0,
      validateGradingResult result maxPoints = some out ∧
      (jGet result "grade").getD (J.num 0) = J.num g0 ∧
      jGet out "grade" = some (J.num (clampGrade g0 maxPoints)) ∧
      0 ≤ clampGrade g0 maxPoints ∧ clampGrade g0 maxPoints ≤ maxPoints ∧
      jGet out "percentage" =
        some (J.num (pyRound1 (clampGrade g0 maxPoints / maxPoints * 100))) ∧
      (∃ fb, jGet out "feedback" = some (J.obj fb) ∧
        jHasKey fb "overall" = true ∧ jHasKey fb "strengths" = true ∧
        jHasKey fb "areas_for_improvement" = true ∧
        jHasKey fb "missing_elements" = true ∧
        jHasKey fb "specific_comments" = true) ∧
      jHasKey out "rubric_breakdown" = true ∧
      jHasKey out "confidence_level" = true ∧
      jHasKey out "recommendations" = true := by
  obtain ⟨g0, hg0⟩ : ∃ g0, (jGet result "grade").getD (J.num 0) = J.num g0 := by
    cases hj : jGet result "grade" with
    | none => exact ⟨0, rfl⟩
    | some v => obtain ⟨q, rfl⟩ := hg v hj; exact ⟨q, rfl⟩
  have hmax0 : maxPoints ≠ 0 := ne_of_gt hmax
  set g : ℚ := clampGrade g0 maxPoints with hgdef
  set r1 : List (String × J) :=
    jSet (jSet result "grade" (J.num g)) "percentage"
      (J.num (pyRound1 (g / maxPoints * 100))) with hr1
  have hstep1 : gradeStep result maxPoints = some r1 := by
    unfold gradeStep
    rw [hg0]
    simp [hmax0, hr1, hgdef]
  have h1grade : jGet r1 "grade" = some (J.num g) := by
    rw [hr1, jGet_jSet_other _ _ (by decide), jGet_jSet_self]
  have h1pct : jGet r1 "percentage" = some (J.num (pyRound1 (g / maxPoints * 100))) := by
    rw [hr1, jGet_jSet_self]
  have h1other : ∀ k, k ≠ "grade" → k ≠ "percentage" → jGet r1 k = jGet result k := by
    intro k hk1 hk2
    rw [hr1, jGet_jSet_other _ _ (Ne.symm hk2), jGet_jSet_other _ _ (Ne.symm hk1)]
  obtain ⟨fb0, hfb0⟩ : ∃ fb0, (jGet r1 "feedback").getD (J.obj []) = J.obj fb0 := by
    cases hj : jGet r1 "feedback" with
    | none => exact ⟨[], rfl⟩
    | some v =>
      rw [h1other "feedback" (by decide) (by decide)] at hj
      obtain ⟨o, rfl⟩ := hf v hj
      exact ⟨o, rfl⟩
  set r2 : List (String × J) := jSet r1 "feedback" (J.obj (fillFeedback fb0)) with hr2
  have hstep2 : feedbackStep r1 = some r2 := by
    unfold feedbackStep
    rw [hfb0]
  have h2fb : jGet r2 "feedback" = some (J.obj (fillFeedback fb0)) := by
    rw [hr2, jGet_jSet_self]
  have h2other : ∀ k, k ≠ "feedback" → jGet r2 k = jGet r1 k := by
    intro k hk
    rw [hr2, jGet_jSet_other _ _ (Ne.symm hk)]
  obtain ⟨es, hes, hesobj⟩ : ∃ es,
      (jGet r2 "rubric_breakdown").getD (J.arr []) = J.arr es ∧
      ∀ b ∈ es, ∃ eo, b = J.obj eo := by
    cases hj : jGet r2 "rubric_breakdown" with
    | none => exact ⟨[], rfl, by simp⟩
    | some v =>
      rw [h2other _ (by decide), h1other _ (by decide) (by decide)] at hj
      obtain ⟨es, rfl, hobj⟩ := hrb v hj
      exact ⟨es, rfl, hobj⟩
  obtain ⟨es2, hes2⟩ := fillBreakdowns_total hesobj
  set r3 : List (String × J) := jSet r2 "rubric_breakdown" (J.arr es2) with hr3
  have hstep3 : breakdownStep r2 = some r3 := by
    unfold breakdownStep
    rw [hes]
    simp [hes2, hr3]
  have h3rb : jHasKey r3 "rubric_breakdown" = true := by
    rw [hr3]
    simp [jHasKey, jGet_jSet_self]
  have h3other : ∀ k, k ≠ "rubric_breakdown" → jGet r3 k = jGet r2 k := by
    intro k hk
    rw [hr3, jGet_jSet_other _ _ (Ne.symm hk)]
  have hc3 : ∀ v, jGet r3 "confidence_level" = some v → ∃ q, v = J.num q := by
    intro v hv
    rw [h3other _ (by decide), h2other _ (by decide),
      h1other _ (by decide) (by decide)] at hv
    exact hc v hv
  obtain ⟨r4, hstep4, h4key, h4other⟩ := confidenceStep_sound hc3
  refine ⟨setIfMissing r4 "recommendations" (J.arr []), g0, ?_, hg0, ?_, ?_, ?_, ?_, ?_, ?_,
    ?_, ?_⟩
  · simp [validateGradingResult, hstep1, hstep2, hstep3, hstep4]
  · rw [jGet_setIfMissing_other _ _ (by decide), h4other _ (by decide),
      h3other _ (by decide), h2other _ (by decide), h1grade]
  · unfold clampGrade
    split_ifs <;> linarith
  · unfold clampGrade
    split_ifs <;> linarith
  · rw [jGet_setIfMissing_other _ _ (by decide), h4other _ (by decide),
      h3other _ (by decide), h2other _ (by decide), h1pct]
  · refine ⟨fillFeedback fb0, ?_, fillFeedback_keys fb0⟩
    rw [jGet_setIfMissing_other _ _ (by decide), h4other _ (by decide),
      h3other _ (by decide), h2fb]
  · rw [jHasKey, jGet_setIfMissing_other _ _ (by decide), h4other _ (by decide)]
    rw [jHasKey] at h3rb
    exact h3rb
  · rw [jHasKey, jGet_setIfMissing_other _ _ (by decide)]
    rw [jHasKey] at h4key
    exact h4key
  · exact jHasKey_setIfMissing_self _ _ _

/-- C5 (witness): the validation theorem applied to the concrete result
`{"grade": 150}` with `max_points = 100` (the grade is clamped to 100). -/
theorem C5_witness :
    0 < (100 : ℚ) ∧
    (∃ out g0,
      validateGradingResult [("grade", J.num 150)] 100 = some out ∧
      (jGet [("grade", J.num 150)] "grade").getD (J.num 0) = J.num g0 ∧
      jGet out "grade" = some (J.num (clampGrade g0 100)) ∧
      0 ≤ clampGrade g0 100 ∧ clampGrade g0 100 ≤ 100 ∧
      jGet out "percentage" = some (J.num (pyRound1 (clampGrade g0 100 / 100 * 100))) ∧
      (∃ fb, jGet out "feedback" = some (J.obj fb) ∧
        jHasKey fb "overall" = true ∧ jHasKey fb "strengths" = true ∧
        jHasKey fb "areas_for_improvement" = true ∧
        jHasKey fb "missing_elements" = true ∧
        jHasKey fb "specific_comments" = true) ∧
      jHasKey out "rubric_breakdown" = true ∧
      jHasKey out "confidence_level" = true ∧
      jHasKey out "recommendations" = true) := by
  refine ⟨by norm_num, C5_validate_grading_result _ _ (by norm_num) ?_ ?_ ?_ ?_⟩
  · intro v hv
    exact ⟨150, (Option.some.inj hv).symm⟩
  · intro v hv
    exact absurd hv (by simp [jGet])
  · intro v hv
    exact absurd hv (by simp [jGet])
  · intro v hv
    exact absurd hv (by simp [jGet])

/-- Model of `response_text.split('\n')`: cut the character list at every
newline (an empty input yields the single empty line, as in Python). -/
def splitLinesGo : List Char → List Char → List String
  | [], acc => [String.mk acc.reverse]
  | c :: rest, acc =>
    if c = '\n' then String.mk acc.reverse :: splitLinesGo rest []
    else splitLinesGo rest (c :: acc)

def pySplitLines (s : String) : List String := splitLinesGo s.toList []

/-- Lowercasing of a whole string (`line.lower()`). -/
def pyLower (s : String) : String := String.mk (s.toList.map pyLowerChar)

/-- `'grade' in line.lower() or 'score' in line.lower()`. -/
def lineQualifies (l : String) : Bool :=
  strOccursIn "grade" (pyLower l) || strOccursIn "score" (pyLower l)

/-- Value of the first maximal digit run (`re.findall(r'\d+', line)[0]`),
or `none` when the line has no digits. -/
def firstNumRun : List Char → Option ℕ
  | [] => none
  | c :: rest =>
    if c.isDigit then some (digitsVal (c :: rest.takeWhile Char.isDigit))
    else firstNumRun rest

/-- The grade-extraction loop of `_parse_text_response`: scan the lines;
on each line containing "grade"/"score", take the first number and stop if
it does not exceed `max_points`; otherwise keep scanning; default 0. -/
def extractGrade (lines : List String) (maxPoints : ℤ) : ℕ :=
  match lines with
  | [] => 0
  | l :: rest =>
    if lineQualifies l then
      match firstNumRun l.toList with
      | some n => if (n : ℤ) ≤ maxPoints then n else extractGrade rest maxPoints
      | none => extractGrade rest maxPoints
    else extractGrade rest maxPoints

/-- Embedding of `GradingAgent._parse_text_response`.  `none` models the
`ZeroDivisionError` raised by the percentage computation when
`max_points == 0`. -/
def parseTextResponse (text : String) (maxPoints : ℤ) : Option J :=
  if maxPoints = 0 then none
  else
    some (J.obj [
      ("success", J.bool true),
      ("grade", J.num ((extractGrade (pySplitLines text) maxPoints : ℕ) : ℚ)),
      ("feedback", J.str text),
      ("detailed_result", J.obj [
        ("grade", J.num ((extractGrade (pySplitLines text) maxPoints : ℕ) : ℚ)),
        ("percentage", J.num (pyRound1
          (((extractGrade (pySplitLines text) maxPoints : ℕ) : ℚ) / (maxPoints : ℚ) * 100))),
        ("feedback", J.obj [("overall", J.str text)]),
        ("confidence_level", J.num fallbackConfidence)])])

/-- The error dict produced by `grade_submission`'s outermost `except`
(the payload of `str(e)` is abstracted as the caught error string). -/
def errorResultDict (e : String) : J :=
  J.obj [
    ("success", J.bool false),
    ("error", J.str e),
    ("grade", J.num 0),
    ("feedback", J.str "Sorry, I encountered an error while grading this submission. Please try again or grade manually.")]

/-- Embedding of `GradingAgent.grade_submission`.  `llm` models the LLM
call (its `Except.error` case the raised network error), `jparse` models
`json.loads` (`none` on `JSONDecodeError`). -/
def gradeSubmission (llm : Except String String)
    (jparse : String → Option (List (String × J))) (maxPoints : ℤ) : J :=
  match llm with
  | .error e => errorResultDict e
  | .ok text =>
    match jparse text with
    | some r =>
      match validateGradingResult r (maxPoints : ℚ) with
      | some out =>
        J.obj [
          ("success", J.bool true),
          ("grade", (jGet out "grade").getD J.null),
          ("feedback",
            (match (jGet out "feedback").getD J.null with
             | J.obj fb => (jGet fb "overall").getD J.null
             | _ => J.null)),
          ("detailed_result", J.obj out)]
      | none => errorResultDict "validation error"
    | none =>
      match parseTextResponse text maxPoints with
      | some j => j
      | none => errorResultDict "division by zero"

/-- All maximal digit runs of a line (`re.findall(r'\d+', line)`), written
with explicit fuel (each step consumes at least one character). -/
def numRunsGo : ℕ → List Char → List ℕ
  | 0, _ => []
  | _ + 1, [] => []
  | fuel + 1, c :: rest =>
    if c.isDigit then
      digitsVal (c :: rest.takeWhile Char.isDigit) :: numRunsGo fuel (rest.dropWhile Char.isDigit)
    else numRunsGo fuel rest

def numRuns (l : List Char) : List ℕ := numRunsGo l.length l

/-- The claim's reading of the fallback grade extraction: the first number
not exceeding `max_points` among all the numbers found on lines containing
"grade" or "score" (defaulting to 0).  Used only to compare the claim's
wording with the code's behaviour. -/
def claimFirstNumber (lines : List String) (maxPoints : ℤ) : ℕ :=
  (List.find? (fun n : ℕ => decide ((n : ℤ) ≤ maxPoints))
    (((lines.filter lineQualifies).map (fun l => numRuns l.toList)).flatten)).getD 0

/-- When no line mentions "grade" or "score", the fallback grade is 0. -/
theorem extractGrade_default {lines : List String} (maxPoints : ℤ)
    (h : ∀ l ∈ lines, lineQualifies l = false) :
    extractGrade lines maxPoints = 0 := by
  induction lines with
  | nil => rfl
  | cons l rest ih =>
    simp [extractGrade, h l (List.mem_cons_self _ _),
      ih (fun x hx => h x (List.mem_cons_of_mem _ hx))]

/-- C6 (counterexample).  The claim says the fallback grade is "the first
number not exceeding max_points found on a line containing grade or
score".  On the response "grade 150 100" with `max_points = 100`, the first
such number is 100, but the code only examines the first number of each
qualifying line (here 150 > 100) and so returns the default 0.  Moreover,
with `max_points = 0` the fallback path raises `ZeroDivisionError` in the
percentage computation, so the outer handler's error dict is returned and
the promised `detailed_result` key is absent. -/
theorem C6_counterexample :
    jGetOpt ((parseTextResponse "grade 150 100" 100).getD J.null) "grade"
      = some (J.num ((0 : ℕ) : ℚ)) ∧
    claimFirstNumber (pySplitLines "grade 150 100") 100 = 100 ∧
    jHasKeyOpt (gradeSubmission (Except.ok "not json") (fun _ => none) 0) "detailed_result"
      = false :=
  ⟨rfl, rfl, rfl⟩

/-- C6 (amended).  When the LLM response is not valid JSON and
`max_points ≥ 1`, `grade_submission` does not raise: it returns the
fallback dict, which always contains the keys `grade`, `feedback` and
`detailed_result`; the grade is the first number of a line containing
"grade"/"score" provided that number does not exceed `max_points` (lines
whose first number exceeds `max_points` are skipped), defaulting to 0 when
no such number exists; and the reported confidence 0.6 is lower than the
JSON path's default 0.8. -/
theorem C6_text_fallback (text : String)
    (jparse : String → Option (List (String × J))) (maxPoints : ℤ)
    (hparse : jparse text = none) (hmax : 1 ≤ maxPoints) :
    jHasKeyOpt (gradeSubmission (Except.ok text) jparse maxPoints) "grade" = true ∧
    jHasKeyOpt (gradeSubmission (Except.ok text) jparse maxPoints) "feedback" = true ∧
    jHasKeyOpt (gradeSubmission (Except.ok text) jparse maxPoints) "detailed_result" = true ∧
    jGetOpt (gradeSubmission (Except.ok text) jparse maxPoints) "grade"
      = some (J.num ((extractGrade (pySplitLines text) maxPoints : ℕ) : ℚ)) ∧
    ((∀ l ∈ pySplitLines text, lineQualifies l = false) →
      extractGrade (pySplitLines text) maxPoints = 0) ∧
    jGetOpt ((jGetOpt (gradeSubmission (Except.ok text) jparse maxPoints)
        "detailed_result").getD J.null) "confidence_level"
      = some (J.num fallbackConfidence) ∧
    fallbackConfidence < jsonDefaultConfidence := by
  have h0 : maxPoints ≠ 0 := by omega
  simp only [gradeSubmission, hparse, parseTextResponse, h0, if_false]
  exact ⟨rfl, rfl, rfl, rfl, fun h => extractGrade_default maxPoints h, rfl,
    by norm_num [fallbackConfidence, jsonDefaultConfidence]⟩

/-- C6 (witness): the fallback theorem applied to the response
"Grade: 85" with a failing JSON parse and `max_points = 100`. -/
theorem C6_witness :
    (fun _ : String => (none : Option (List (String × J)))) "Grade: 85" = none ∧
    (1 : ℤ) ≤ 100 ∧
    (jHasKeyOpt (gradeSubmission (Except.ok "Grade: 85") (fun _ => none) 100) "grade" = true ∧
      jHasKeyOpt (gradeSubmission (Except.ok "Grade: 85") (fun _ => none) 100) "feedback"
        = true ∧
      jHasKeyOpt (gradeSubmission (Except.ok "Grade: 85") (fun _ => none) 100) "detailed_result"
        = true ∧
      jGetOpt (gradeSubmission (Except.ok "Grade: 85") (fun _ => none) 100) "grade"
        = some (J.num ((extractGrade (pySplitLines "Grade: 85") 100 : ℕ) : ℚ)) ∧
      ((∀ l ∈ pySplitLines "Grade: 85", lineQualifies l = false) →
        extractGrade (pySplitLines "Grade: 85") 100 = 0) ∧
      jGetOpt ((jGetOpt (gradeSubmission (Except.ok "Grade: 85") (fun _ => none) 100)
          "detailed_result").getD J.null) "confidence_level"
        = some (J.num fallbackConfidence) ∧
      fallbackConfidence < jsonDefaultConfidence) :=
  ⟨rfl, by norm_num, C6_text_fallback "Grade: 85" (fun _ => none) 100 rfl (by norm_num)⟩

/-! ## Relational store model for `handlers.py`

Tables are insertion-ordered lists of rows; queries filter them preserving
order, so "the first row of the result" is the head of the filtered list.
`eq` filters are exact string equality and `ilike` is case-insensitive
(with `%pat%` as substring matching), as in the datastore API.  Row-level
security and the distinction between user-token and service-role clients
are not part of the embedded code: both are modelled as direct table
access.  Server-set timestamp columns are not modelled; columns whose
values the claims never inspect (`total_points`, the rubric text) are kept
as raw `J` values. -/

structure Course where
  id : String
  title : String
  description : String
  teacher_id : String
deriving DecidableEq, Repr

structure Assignment where
  id : String
  course_id : String
  title : String
  description : String
  total_points : J
  status : String
  due_date : DateTime
  rubric_markdown : J

structure DB where
  courses : List Course
  assignments : List Assignment

structure ActionResult where
  success : Bool
  message : String
  data : J

/-- Parameter dicts extracted by the intent classifier. -/
abbrev Params := List (String × J)

def otruthy (o : Option J) : Bool :=
  match o with
  | some v => truthy v
  | none => false

def asStr : J → Option String
  | J.str s => some s
  | _ => none

/-- Python `str(value)` as used in message interpolation (opaque rendering
for containers; the claims never inspect these fragments). -/
def jRepr : J → String
  | J.null => "None"
  | J.bool b => if b then "True" else "False"
  | J.num q => toString q
  | J.str s => s
  | J.arr _ => "<list>"
  | J.obj _ => "<dict>"

def pyUpperChar (c : Char) : Char :=
  if 'a' ≤ c ∧ c ≤ 'z' then Char.ofNat (c.toNat - 32) else c

def pyUpper (s : String) : String := String.mk (s.toList.map pyUpperChar)

def strTrim (s : String) : String := String.mk (pyStrip s.toList)

def pyEndsWith (s suf : String) : Bool :=
  leadMatch suf.toList.reverse s.toList.reverse

/-- The shared course-name cleanup: strip, drop a trailing " course",
strip again (`_find_course` and `_find_or_create_course`). -/
def stripCourseSuffix (s : String) : String :=
  let t := strTrim s
  if pyEndsWith (pyLower t) " course" then
    strTrim (String.mk (t.toList.take (t.toList.length - 7)))
  else t

/-- `ilike("title", pat)` without wildcards: case-insensitive equality. -/
def ilikeExact (title pat : String) : Bool := pyLower title = pyLower pat

/-- `ilike("title", f"%{pat}%")`: case-insensitive substring. -/
def ilikeSub (title pat : String) : Bool :=
  occursIn (pyLower pat).toList (pyLower title).toList

def isHexDigit (c : Char) : Bool :=
  c.isDigit || ('a' ≤ c && c ≤ 'f') || ('A' ≤ c && c ≤ 'F')

def splitOnCharGo (sep : Char) : List Char → List Char → List (List Char)
  | [], acc => [acc.reverse]
  | c :: rest, acc =>
    if c = sep then acc.reverse :: splitOnCharGo sep rest []
    else splitOnCharGo sep rest (c :: acc)

def splitOnChar (sep : Char) (l : List Char) : List (List Char) :=
  splitOnCharGo sep l []

/-- The strict `^[0-9a-fA-F]{8}-…{4}-…{4}-…{4}-…{12}$` pattern of
`_find_assignment`. -/
def isUuidFormat (s : String) : Bool :=
  let parts := splitOnChar '-' s.toList
  parts.map List.length = [8, 4, 4, 4, 12] && parts.all (fun p => p.all isHexDigit)

/-! ### Table operations -/

def findCourseById (db : DB) (cid : String) : Option Course :=
  db.courses.find? (fun c => c.id = cid)

def coursesIlikeExact (db : DB) (pat : String) : List Course :=
  db.courses.filter (fun c => ilikeExact c.title pat)

def coursesIlikeSub (db : DB) (pat : String) : List Course :=
  db.courses.filter (fun c => ilikeSub c.title pat)

def assignmentsIlikeSub (db : DB) (pat : String) : List Assignment :=
  db.assignments.filter (fun a => ilikeSub a.title pat)

def assignmentById (db : DB) (aid : String) : Option Assignment :=
  db.assignments.find? (fun a => a.id = aid)

def assignmentsByCourse (db : DB) (cid : String) : List Assignment :=
  db.assignments.filter (fun a => a.course_id = cid)

def insertCourse (db : DB) (c : Course) : DB :=
  { db with courses := db.courses ++ [c] }

def insertAssignment (db : DB) (a : Assignment) : DB :=
  { db with assignments := db.assignments ++ [a] }

/-- `update(...).eq("id", aid)`: patch every matching row; the returned
count is the number of matched rows (`result.data`). -/
def updateAssignmentRow (db : DB) (aid : String) (f : Assignment → Assignment) : DB × ℕ :=
  ({ db with assignments := db.assignments.map (fun a => if a.id = aid then f a else a) },
    (db.assignments.filter (fun a => a.id = aid)).length)

/-- `delete().eq("id", aid)`: hard delete, count of deleted rows. -/
def deleteAssignmentRow (db : DB) (aid : String) : DB × ℕ :=
  ({ db with assignments := db.assignments.filter (fun a => ¬ a.id = aid) },
    (db.assignments.filter (fun a => a.id = aid)).length)

/-! ### Entity resolution (`_find_course`, `_find_assignment`) -/

/-- Left-to-right non-overlapping replacement of every occurrence of
`pat` (non-empty in all uses), the model of Python's `str.replace`. -/
def replaceAllGo : ℕ → List Char → List Char → List Char → List Char
  | 0, _, _, l => l
  | _ + 1, _, _, [] => []
  | fuel + 1, pat, rep, c :: rest =>
    if leadMatch pat (c :: rest) then
      rep ++ replaceAllGo fuel pat rep ((c :: rest).drop pat.length)
    else c :: replaceAllGo fuel pat rep rest

def pyReplace (s pat rep : String) : String :=
  String.mk (replaceAllGo s.toList.length pat.toList rep.toList s.toList)

/-- Embedding of `_find_assignment`'s keyword stripping:
`identifier.lower().replace("assignment", "").replace("the", "").strip()`. -/
def stripAssignmentWords (identifier : String) : String :=
  strTrim (pyReplace (pyReplace (pyLower identifier) "assignment" "") "the" "")

/-- Embedding of `ActionHandlers._find_course`. -/
def findCourse (identifier : String) (db : DB) (user_id : Option String) : Option Course :=
  let cleaned := stripCourseSuffix identifier
  match (if identifier.length = 36 then findCourseById db identifier else none) with
  | some c =>
    match user_id with
    | some uid => if c.teacher_id ≠ uid then none else some c
    | none => some c
  | none =>
    let exact := coursesIlikeExact db cleaned
    let results := if exact.isEmpty then coursesIlikeSub db cleaned else exact
    if results.isEmpty then none
    else
      match user_id with
      | some uid =>
        match results.filter (fun c => c.teacher_id = uid) with
        | c :: _ => some c
        | [] => none
      | none => results.head?

/-- Embedding of `ActionHandlers._find_assignment`: UUID lookup, then
case-insensitive substring title search, then the course-based fallback
for identifiers containing "assignment" (returning the first assignment of
the matched course). -/
def findAssignment (identifier : String) (db : DB) (user_id : Option String) :
    Option Assignment :=
  match (if isUuidFormat identifier then assignmentById db identifier else none) with
  | some a => some a
  | none =>
    match assignmentsIlikeSub db identifier with
    | a :: _ => some a
    | [] =>
      if strOccursIn "assignment" (pyLower identifier) then
        let kw := stripAssignmentWords identifier
        if kw ≠ "" then
          match findCourse kw db user_id with
          | some course =>
            match assignmentsByCourse db course.id with
            | a :: _ => some a
            | [] => none
          | none => none
        else none
      else none

/-! ### Mutation handlers -/

/-- The ownership ("security") check shared by the update / rubric /
delete paths: the course row of the assignment must exist and carry the
caller's `teacher_id`. -/
def ownsAssignmentCourse (db : DB) (a : Assignment) (uid : String) : Bool :=
  match findCourseById db a.course_id with
  | some c => c.teacher_id = uid
  | none => false

/-- `process_date_expression` as invoked on a parameter value: its
internal `try` swallows the `AttributeError` of a non-string argument and
yields the tomorrow-end-of-day fallback. -/
def processDateJ (parse : List Char → Option DateTime) (now : DateTime) (v : J) : DateTime :=
  match v with
  | J.str s => processDateExpression parse s now
  | _ => endOfDay (now.addDays 1)

/-- Well-typedness of the `update_data` payload: a truthy value destined
for a text column must be a string and `total_points` numeric, otherwise
the datastore rejects the write (the raised error is caught by the
handler's `except`). -/
def wellTypedUpdate (new_title description points status : Option J) : Bool :=
  (!otruthy new_title || (match new_title with | some (J.str _) => true | _ => false)) &&
  (!otruthy description || (match description with | some (J.str _) => true | _ => false)) &&
  (!otruthy points || (match points with | some (J.num _) => true | _ => false)) &&
  (!otruthy status || (match status with | some (J.str _) => true | _ => false))

/-- The `update_data` payload of `_update_single_assignment` applied to a
matched row: each truthy field is patched (natural-language due dates are
normalised through `process_date_expression`). -/
def applyUpdateData (new_title description points due_date status : Option J)
    (parse : List Char → Option DateTime) (now : DateTime) (x : Assignment) : Assignment :=
  let x := if otruthy new_title then
      (match new_title with | some (J.str s) => { x with title := s } | _ => x)
    else x
  let x := if otruthy description then
      (match description with | some (J.str s) => { x with description := s } | _ => x)
    else x
  let x := if otruthy points then
      (match points with | some (J.num q) => { x with total_points := J.num q } | _ => x)
    else x
  let x := if otruthy due_date then
      (match due_date with
       | some v => { x with due_date := processDateJ parse now v }
       | none => x)
    else x
  if otruthy status then
    (match status with | some (J.str s) => { x with status := s } | _ => x)
  else x

/-- Embedding of `ActionHandlers._update_single_assignment`: ownership
check first, then field extraction, the "nothing to update" early return,
and the row patch. -/
def updateSingleAssignment (assignment : Assignment) (params : Params) (uid : String)
    (parse : List Char → Option DateTime) (now : DateTime) (db : DB) :
    ActionResult × DB :=
  if ownsAssignmentCourse db assignment uid then
    let new_title := pyOr (jGet params "new_title")
      (if jHasKey params "assignment_name" || jHasKey params "assignment_id" then
        jGet params "title" else none)
    let description := jGet params "description"
    let points := jGet params "points"
    let due_date := jGet params "due_date"
    let status := jGet params "status"
    if otruthy new_title || otruthy description || otruthy points || otruthy due_date ||
        otruthy status then
      if wellTypedUpdate new_title description points status then
        let (db2, n) := updateAssignmentRow db assignment.id
          (applyUpdateData new_title description points due_date status parse now)
        if 0 < n then
          ({ success := true,
             message := "✅ Updated assignment '" ++ assignment.title ++ "'!",
             data := J.obj [("assignment_id", J.str assignment.id)] }, db2)
        else
          ({ success := false, message := "Failed to update assignment in database.",
             data := J.null }, db2)
      else
        ({ success := false,
           message := "I encountered an error while updating the assignment.",
           data := J.null }, db)
    else
      ({ success := false,
         message := "I need to know what you want to update about the assignment.",
         data := J.null }, db)
  else
    ({ success := false, message := "You can only update assignments in your own courses.",
       data := J.null }, db)

/-- Embedding of `ActionHandlers._delete_single_assignment`. -/
def deleteSingleAssignment (assignment : Assignment) (uid : String) (db : DB) :
    ActionResult × DB :=
  if ownsAssignmentCourse db assignment uid then
    let (db2, n) := deleteAssignmentRow db assignment.id
    if 0 < n then
      ({ success := true,
         message := "✅ Successfully deleted assignment '" ++ assignment.title ++ "'!",
         data := J.obj [("assignment_id", J.str assignment.id),
           ("assignment_title", J.str assignment.title)] }, db2)
    else
      ({ success := false, message := "Failed to delete assignment from database.",
         data := J.null }, db2)
  else
    ({ success := false, message := "You can only delete assignments in your own courses.",
       data := J.null }, db)

/-- Embedding of `ActionHandlers.update_rubric` (parameter validation,
entity resolution, ownership check, rubric patch). -/
def updateRubric (params : Params) (uid : String) (db : DB) : ActionResult × DB :=
  let assignment_identifier := pyOr (jGet params "assignment_id")
    (pyOr (jGet params "assignment_name") (jGet params "title"))
  let rubric_text := pyOr (jGet params "rubric_text") (jGet params "rubric")
  if !(otruthy assignment_identifier) || !(otruthy rubric_text) then
    ({ success := false,
       message := "I need both an assignment name and the new rubric content.",
       data := J.null }, db)
  else
    match assignment_identifier with
    | some (J.str ident) =>
      match findAssignment ident db (some uid) with
      | none =>
        ({ success := false, message := "I couldn't find assignment '" ++ ident ++ "'.",
           data := J.null }, db)
      | some a =>
        if ownsAssignmentCourse db a uid then
          let (db2, n) := updateAssignmentRow db a.id
            (fun x => { x with rubric_markdown := rubric_text.getD J.null })
          if 0 < n then
            ({ success := true,
               message := "✅ Updated rubric for assignment '" ++ a.title ++ "'!",
               data := J.obj [("assignment_id", J.str a.id),
                 ("assignment_title", J.str a.title),
                 ("new_rubric", rubric_text.getD J.null)] }, db2)
          else
            ({ success := false, message := "Failed to update rubric in database.",
               data := J.null }, db2)
        else
          ({ success := false,
             message := "You can only update rubrics for assignments in your own courses.",
             data := J.null }, db)
    | _ =>
      ({ success := false, message := "I encountered an error while updating the rubric.",
         data := J.null }, db)

/-- `action == "publish"` (any non-string compares unequal). -/
def isPublishAction (action : J) : Bool :=
  match action with
  | J.str s => s == "publish"
  | _ => false

/-- Embedding of `ActionHandlers._publish_single_assignment`.  Note: no
ownership check is performed here. -/
def publishSingleAssignment (assignment : Assignment) (action : J) (db : DB) :
    ActionResult × DB :=
  let new_status := if isPublishAction action then "published" else "draft"
  let (db2, n) := updateAssignmentRow db assignment.id (fun x => { x with status := new_status })
  if 0 < n then
    ({ success := true,
       message := "✅ Assignment '" ++ assignment.title ++ "' has been " ++
         (if new_status = "published" then "published and visible to students"
          else "unpublished and hidden from students") ++ "!",
       data := J.obj [("assignment_id", J.str assignment.id),
         ("assignment_title", J.str assignment.title),
         ("new_status", J.str new_status)] }, db2)
  else
    ({ success := false, message := "Failed to update assignment status in database.",
       data := J.null }, db2)

def publishMultipleGo (action : J) : List Assignment → DB → (List String × List String × DB)
  | [], db => ([], [], db)
  | a :: rest, db =>
    let new_status := if isPublishAction action then "published" else "draft"
    let (db2, n) := updateAssignmentRow db a.id (fun x => { x with status := new_status })
    let (succ, fail, db3) := publishMultipleGo action rest db2
    if 0 < n then (a.title :: succ, fail, db3) else (succ, a.title :: fail, db3)

/-- Embedding of `ActionHandlers._publish_multiple_assignments` (per-item
results, mixed summary, no rollback). -/
def publishMultipleAssignments (assignments : List Assignment) (action : J)
    (course_title : String) (db : DB) : ActionResult × DB :=
  let action_msg := if isPublishAction action then "published" else "unpublished"
  let (succ, fail, db2) := publishMultipleGo action assignments db
  if !succ.isEmpty && fail.isEmpty then
    ({ success := true,
       message := "✅ Successfully " ++ action_msg ++ " " ++ toString succ.length ++
         " assignments in course '" ++ course_title ++ "': " ++
         String.intercalate ", " succ,
       data := J.obj [("course_title", J.str course_title),
         ("successful_assignments", J.arr (succ.map J.str))] }, db2)
  else if !succ.isEmpty && !fail.isEmpty then
    ({ success := true,
       message := "⚠️ Partially " ++ action_msg ++ " assignments in course '" ++
         course_title ++ "'. Successful: " ++ String.intercalate ", " succ ++
         ". Failed: " ++ String.intercalate ", " fail,
       data := J.obj [("course_title", J.str course_title),
         ("successful_assignments", J.arr (succ.map J.str)),
         ("failed_assignments", J.arr (fail.map J.str))] }, db2)
  else
    ({ success := false,
       message := "Failed to " ++ jRepr action ++ " any assignments in course '" ++
         course_title ++ "'.",
       data := J.obj [("course_title", J.str course_title),
         ("failed_assignments", J.arr (fail.map J.str))] }, db2)

/-- The keyword stripping of the publish handler's course fallback
(also removes "in" and "course", unlike `_find_assignment`'s). -/
def stripPublishKeywords (identifier : String) : String :=
  strTrim (pyReplace (pyReplace (pyReplace (pyReplace
    (pyLower identifier) "assignment" "") "the" "") "in" "") "course" "")

/-- Embedding of `ActionHandlers.publish_assignment` (direct lookup, then
the course-based fallback; single-assignment courses are toggled with an
enhanced message, multi-assignment courses are bulk-toggled). -/
def publishAssignment (params : Params) (uid : String) (db : DB) : ActionResult × DB :=
  let ident? := pyOr (jGet params "assignment_id")
    (pyOr (jGet params "assignment_name") (jGet params "title"))
  let action := (jGet params "action").getD (J.str "publish")
  if !(otruthy ident?) then
    ({ success := false,
       message := "I need an assignment name or course name to publish/unpublish assignments.",
       data := J.null }, db)
  else
    match ident? with
    | some (J.str ident) =>
      match findAssignment ident db (some uid) with
      | some a => publishSingleAssignment a action db
      | none =>
        let kw := stripPublishKeywords ident
        if kw ≠ "" then
          match findCourse kw db (some uid) with
          | some course =>
            match assignmentsByCourse db course.id with
            | [] =>
              ({ success := false,
                 message := "No assignments found in course '" ++ course.title ++ "'.",
                 data := J.null }, db)
            | [a] =>
              let (r, db2) := publishSingleAssignment a action db
              if r.success then
                ({ r with message := "✅ Found and " ++
                    (if isPublishAction action then "published" else "unpublished") ++
                    " assignment '" ++ a.title ++ "' in course '" ++ course.title ++ "'!" },
                  db2)
              else (r, db2)
            | assignments => publishMultipleAssignments assignments action course.title db
          | none =>
            ({ success := false,
               message := "I couldn't find any assignment or course matching '" ++ ident ++
                 "'. Please provide a specific assignment name or course name.",
               data := J.null }, db)
        else
          ({ success := false,
             message := "I couldn't find any assignment or course matching '" ++ ident ++
               "'. Please provide a specific assignment name or course name.",
             data := J.null }, db)
    | _ =>
      ({ success := false,
         message := "I encountered an error while updating the assignment status.",
         data := J.null }, db)

/-- Embedding of `ActionHandlers._find_or_create_course`: flexible match
among the caller's courses, otherwise insert a fresh course (the generated
UUID is the `newCourseId` parameter) owned by the caller. -/
def findOrCreateCourse (course_code : String) (uid : String) (newCourseId : String)
    (db : DB) : Option String × DB :=
  let cleaned := stripCourseSuffix course_code
  let exact := coursesIlikeExact db cleaned
  let results := if exact.isEmpty then coursesIlikeSub db cleaned else exact
  match results.filter (fun c => c.teacher_id = uid) with
  | c :: _ => (some c.id, db)
  | [] =>
    (some newCourseId,
      insertCourse db
        { id := newCourseId, title := cleaned, description := "Course " ++ cleaned,
          teacher_id := uid })

/-- Embedding of `ActionHandlers.create_assignment`.  The generated UUIDs
are passed as `newCourseId` / `newAssignmentId`; non-string payloads for
text columns end in the handler's `except` path. -/
def createAssignment (params : Params) (uid : String)
    (newCourseId newAssignmentId : String) (now : DateTime) (db : DB) :
    ActionResult × DB :=
  let title := (jGet params "title").getD (J.str "New Assignment")
  let description := (jGet params "description").getD (J.str "")
  let course := (jGet params "course").getD (J.str "")
  let points := (jGet params "points").getD (J.num 100)
  let publish := (jGet params "publish").getD (J.bool false)
  match course with
  | J.str courseStr =>
    let course_code := pyUpper courseStr
    match findOrCreateCourse course_code uid newCourseId db with
    | (some course_id, db2) =>
      match title, description with
      | J.str titleStr, J.str descStr =>
        let a : Assignment :=
          { id := newAssignmentId, course_id := course_id, title := titleStr,
            description := descStr, total_points := points,
            status := if truthy publish then "published" else "draft",
            due_date := now.addDays 7, rubric_markdown := J.null }
        ({ success := true,
           message := "✅ Created assignment '" ++ titleStr ++ "' for " ++ course_code ++
             " worth " ++ jRepr points ++ " points and " ++
             (if truthy publish then "published and visible to students"
              else "saved as draft") ++ "!",
           data := J.obj [("assignment_id", J.str newAssignmentId),
             ("title", J.str titleStr), ("course", J.str course_code),
             ("points", points), ("status", J.str a.status)] },
          insertAssignment db2 a)
      | _, _ =>
        ({ success := false,
           message := "I encountered an error while creating the assignment.",
           data := J.null }, db2)
    | (none, db2) =>
      ({ success := false,
         message := "I couldn't find or create course '" ++ course_code ++ "'.",
         data := J.null }, db2)
  | _ =>
    ({ success := false,
       message := "I encountered an error while creating the assignment.",
       data := J.null }, db)

/-- `.eq("title", title)`: the exact (case-sensitive) duplicate check of
`create_course`; any non-string title value compares unequal to the text
column. -/
def jStrEq (v : J) (s : String) : Bool :=
  match v with
  | J.str t => t == s
  | _ => false

/-- Embedding of `ActionHandlers.create_course`: global exact-title
duplicate check (no teacher filter), then insert owned by the caller. -/
def createCourse (params : Params) (uid : String) (newCourseId : String) (db : DB) :
    ActionResult × DB :=
  let title := (pyOr (jGet params "title")
    (some ((jGet params "course_code").getD (J.str "New Course")))).getD J.null
  let description := (jGet params "description").getD (J.str ("Course " ++ jRepr title))
  match db.courses.filter (fun c => jStrEq title c.title) with
  | c :: _ =>
    ({ success := false, message := "Course '" ++ jRepr title ++ "' already exists.",
       data := J.obj [("existing_course_id", J.str c.id)] }, db)
  | [] =>
    match title, description with
    | J.str titleStr, J.str descStr =>
      ({ success := true, message := "✅ Created course '" ++ titleStr ++ "'!",
         data := J.obj [("course_id", J.str newCourseId), ("title", J.str titleStr),
           ("description", J.str descStr)] },
        insertCourse db
          { id := newCourseId, title := titleStr, description := descStr,
            teacher_id := uid })
    | _, _ =>
      ({ success := false, message := "I encountered an error while creating the course.",
         data := J.null }, db)

/-! ### `ActionHandlers.execute`

Results are modelled as the `ActionResult` record with exactly the
`success` / `message` / `data` fields, mirroring that every return site in
`handlers.py` is a dict literal with exactly these three keys.  A handler
is a function that may raise (`Except.error`); `execute` itself cannot
raise: the lookup, the unknown-intent dict and the `except` conversion are
all total, which is why the embedding returns a plain pair. -/

abbrev Handler := Params → String → DB → Except String (ActionResult × DB)

/-- The handler table built in `ActionHandlers.__init__`. -/
structure ActionHandlers where
  create_assignment : Handler
  update_assignment : Handler
  update_rubric : Handler
  delete_assignment : Handler
  publish_assignment : Handler
  create_course : Handler
  update_course : Handler
  get_submission_count : Handler
  get_info : Handler
  conversation : Handler

/-- `self.handlers[intent]` (the dict lookup of `execute`). -/
def lookupHandler (h : ActionHandlers) (intent : String) : Option Handler :=
  if intent = "create_assignment" then some h.create_assignment
  else if intent = "update_assignment" then some h.update_assignment
  else if intent = "update_rubric" then some h.update_rubric
  else if intent = "delete_assignment" then some h.delete_assignment
  else if intent = "publish_assignment" then some h.publish_assignment
  else if intent = "create_course" then some h.create_course
  else if intent = "update_course" then some h.update_course
  else if intent = "get_submission_count" then some h.get_submission_count
  else if intent = "get_info" then some h.get_info
  else if intent = "conversation" then some h.conversation
  else none

def handlerNames : List String :=
  ["create_assignment", "update_assignment", "update_rubric", "delete_assignment",
   "publish_assignment", "create_course", "update_course", "get_submission_count",
   "get_info", "conversation"]

def unknownIntentResult (intent : String) : ActionResult :=
  { success := false, message := "I don't know how to handle '" ++ intent ++ "' yet.",
    data := J.null }

def caughtErrorResult (intent e : String) : ActionResult :=
  { success := false,
    message := "I encountered an error while trying to " ++
      pyReplace intent "_" " " ++ ".",
    data := J.obj [("error", J.str e)] }

/-- Embedding of `ActionHandlers.execute`. -/
def executeIntent (h : ActionHandlers) (intent : String) (params : Params) (uid : String)
    (db : DB) : ActionResult × DB :=
  match lookupHandler h intent with
  | none => (unknownIntentResult intent, db)
  | some f =>
    match f params uid db with
    | .ok r => r
    | .error e => (caughtErrorResult intent e, db)

theorem lookupHandler_eq_none_iff (h : ActionHandlers) (intent : String) :
    lookupHandler h intent = none ↔ intent ∉ handlerNames := by
  unfold lookupHandler handlerNames
  split_ifs with h1 h2 h3 h4 h5 h6 h7 h8 h9 h10 <;> simp_all

/-- C8: `ActionHandlers.execute` always returns a `success`/`message`/
`data` record (the record type mirrors that every handler return site
carries exactly these keys) and never propagates an exception: an intent
outside the handler table yields `success = false` with the "I don't know
how to handle" message, a handler exception is caught and converted to a
`success = false` result carrying the error, and a normal handler result
is passed through. -/
theorem C8_execute_total (h : ActionHandlers) (intent : String) (params : Params)
    (uid : String) (db : DB) :
    (intent ∉ handlerNames →
      executeIntent h intent params uid db = (unknownIntentResult intent, db) ∧
      (unknownIntentResult intent).success = false ∧
      (unknownIntentResult intent).message =
        "I don't know how to handle '" ++ intent ++ "' yet.") ∧
    (∀ f, lookupHandler h intent = some f →
      (∀ e, f params uid db = Except.error e →
        executeIntent h intent params uid db = (caughtErrorResult intent e, db) ∧
        (caughtErrorResult intent e).success = false ∧
        (caughtErrorResult intent e).data = J.obj [("error", J.str e)]) ∧
      (∀ r db2, f params uid db = Except.ok (r, db2) →
        executeIntent h intent params uid db = (r, db2))) := by
  constructor
  · intro hni
    have hl : lookupHandler h intent = none := (lookupHandler_eq_none_iff h intent).mpr hni
    refine ⟨?_, rfl, rfl⟩
    unfold executeIntent
    rw [hl]
  · intro f hf
    constructor
    · intro e he
      refine ⟨?_, rfl, rfl⟩
      simp only [executeIntent, hf, he]
    · intro r db2 hr
      simp only [executeIntent, hf, hr]

/-- A handler table whose every entry raises, used to witness the
exception-catching branch of `execute`. -/
def failingHandler : Handler := fun _ _ _ => Except.error "boom"

def demoHandlers : ActionHandlers :=
  { create_assignment := failingHandler, update_assignment := failingHandler,
    update_rubric := failingHandler, delete_assignment := failingHandler,
    publish_assignment := failingHandler, create_course := failingHandler,
    update_course := failingHandler, get_submission_count := failingHandler,
    get_info := failingHandler, conversation := failingHandler }

/-- C8 (witness): the unknown intent "make_coffee" and a raising
"create_course" handler, both converted to failure results. -/
theorem C8_witness :
    ("make_coffee" ∉ handlerNames) ∧
    executeIntent demoHandlers "make_coffee" [] "t1" ⟨[], []⟩ =
      (unknownIntentResult "make_coffee", ⟨[], []⟩) ∧
    executeIntent demoHandlers "create_course" [] "t1" ⟨[], []⟩ =
      (caughtErrorResult "create_course" "boom", ⟨[], []⟩) := by
  have hni : "make_coffee" ∉ handlerNames := by decide
  refine ⟨hni, ((C8_execute_total demoHandlers "make_coffee" [] "t1" ⟨[], []⟩).1 hni).1, ?_⟩
  exact (((C8_execute_total demoHandlers "create_course" [] "t1" ⟨[], []⟩).2 _ rfl).1
    "boom" rfl).1

/-- C10: `create_course` rejects a duplicate title globally — any existing
course row with exactly the requested title, whatever its `teacher_id`,
makes the handler return `success = false` with the "already exists"
message and the first existing row's id, inserting nothing; when no row
has exactly that title (case differences count as distinct, unlike the
case-insensitive entity resolution), a new course owned by the caller is
inserted. -/
theorem C10_create_course_duplicate (db : DB) (params : Params) (uid ncid : String)
    (t : String)
    (htitle : jGet params "title" = some (J.str t)) (hne : t ≠ "") :
    (∀ c0 rest, db.courses.filter (fun c => jStrEq (J.str t) c.title) = c0 :: rest →
      createCourse params uid ncid db =
        ({ success := false, message := "Course '" ++ t ++ "' already exists.",
           data := J.obj [("existing_course_id", J.str c0.id)] }, db)) ∧
    ((∀ c ∈ db.courses, c.title ≠ t) →
      ∀ descStr, (jGet params "description").getD (J.str ("Course " ++ t)) = J.str descStr →
      createCourse params uid ncid db =
        ({ success := true, message := "✅ Created course '" ++ t ++ "'!",
           data := J.obj [("course_id", J.str ncid), ("title", J.str t),
             ("description", J.str descStr)] },
          insertCourse db
            { id := ncid, title := t, description := descStr, teacher_id := uid })) := by
  have htv : (pyOr (jGet params "title")
      (some ((jGet params "course_code").getD (J.str "New Course")))).getD J.null
      = J.str t := by
    rw [htitle]
    simp [pyOr, truthy, hne]
  constructor
  · intro c0 rest hfilter
    simp only [createCourse, htv]
    rw [hfilter]
    simp [jRepr]
  · intro hall descStr hdesc
    have hfilter : db.courses.filter (fun c => jStrEq (J.str t) c.title) = [] := by
      rw [List.filter_eq_nil_iff]
      intro c hc
      simp only [jStrEq, beq_iff_eq, decide_eq_true_eq]
      exact fun hEq => hall c hc hEq.symm
    simp only [createCourse, htv, jRepr] at hdesc ⊢
    rw [hfilter, hdesc]

/-- Existing course rows used by the C10 witness: "CS500" owned by
another teacher, and a case-variant "cs500". -/
def courseOther : Course :=
  { id := "c-other", title := "CS500", description := "d", teacher_id := "other" }

def courseLowerCS : Course :=
  { id := "c-lower", title := "cs500", description := "d", teacher_id := "other" }

/-- C10 (witness): the duplicate check fires on another teacher's "CS500"
row and returns its id without inserting; a case-variant "cs500" row does
not block creation. -/
theorem C10_witness :
    createCourse [("title", J.str "CS500")] "me" "new1" ⟨[courseOther], []⟩ =
      ({ success := false, message := "Course '" ++ "CS500" ++ "' already exists.",
         data := J.obj [("existing_course_id", J.str courseOther.id)] },
        ⟨[courseOther], []⟩) ∧
    createCourse [("title", J.str "CS500")] "me" "new1" ⟨[courseLowerCS], []⟩ =
      ({ success := true, message := "✅ Created course '" ++ "CS500" ++ "'!",
         data := J.obj [("course_id", J.str "new1"), ("title", J.str "CS500"),
           ("description", J.str "Course CS500")] },
        insertCourse ⟨[courseLowerCS], []⟩
          { id := "new1", title := "CS500", description := "Course CS500",
            teacher_id := "me" }) := by
  constructor
  · exact (C10_create_course_duplicate ⟨[courseOther], []⟩ [("title", J.str "CS500")]
      "me" "new1" "CS500" rfl (by decide)).1 courseOther [] rfl
  · exact (C10_create_course_duplicate ⟨[courseLowerCS], []⟩ [("title", J.str "CS500")]
      "me" "new1" "CS500" rfl (by decide)).2 (by decide) "Course CS500" rfl

/-- C4: when `create_assignment` is called with a course name matching no
existing course row (neither exactly nor as a substring,
case-insensitively), it creates a new course owned by the caller and
inserts the assignment with `course_id` equal to the new course's id and a
due date 7 days after the call time. -/
theorem C4_create_assignment (db : DB) (params : Params) (uid ncid naid : String)
    (now : DateTime) (courseStr titleStr descStr : String)
    (hcourse : (jGet params "course").getD (J.str "") = J.str courseStr)
    (htitle : (jGet params "title").getD (J.str "New Assignment") = J.str titleStr)
    (hdesc : (jGet params "description").getD (J.str "") = J.str descStr)
    (hnomatch : ∀ c ∈ db.courses,
      ilikeExact c.title (stripCourseSuffix (pyUpper courseStr)) = false ∧
      ilikeSub c.title (stripCourseSuffix (pyUpper courseStr)) = false) :
    ∃ r db',
      createAssignment params uid ncid naid now db = (r, db') ∧
      r.success = true ∧
      db'.courses = db.courses ++
        [{ id := ncid, title := stripCourseSuffix (pyUpper courseStr),
           description := "Course " ++ stripCourseSuffix (pyUpper courseStr),
           teacher_id := uid }] ∧
      (∃ a, db'.assignments = db.assignments ++ [a] ∧ a.id = naid ∧
        a.course_id = ncid ∧ a.title = titleStr ∧ a.due_date = now.addDays 7) := by
  have hex : coursesIlikeExact db (stripCourseSuffix (pyUpper courseStr)) = [] :=
    List.filter_eq_nil_iff.mpr (fun c hc => by simp [(hnomatch c hc).1])
  have hsub : coursesIlikeSub db (stripCourseSuffix (pyUpper courseStr)) = [] :=
    List.filter_eq_nil_iff.mpr (fun c hc => by simp [(hnomatch c hc).2])
  have hfoc : findOrCreateCourse (pyUpper courseStr) uid ncid db =
      (some ncid,
        insertCourse db
          { id := ncid, title := stripCourseSuffix (pyUpper courseStr),
            description := "Course " ++ stripCourseSuffix (pyUpper courseStr),
            teacher_id := uid }) := by
    simp only [findOrCreateCourse, hex, hsub, List.isEmpty_nil, if_true, List.filter_nil]
  have hred : createAssignment params uid ncid naid now db =
      ({ success := true,
         message := "✅ Created assignment '" ++ titleStr ++ "' for " ++ pyUpper courseStr ++
           " worth " ++ jRepr ((jGet params "points").getD (J.num 100)) ++ " points and " ++
           (if truthy ((jGet params "publish").getD (J.bool false))
            then "published and visible to students" else "saved as draft") ++ "!",
         data := J.obj [("assignment_id", J.str naid), ("title", J.str titleStr),
           ("course", J.str (pyUpper courseStr)),
           ("points", (jGet params "points").getD (J.num 100)),
           ("status", J.str (if truthy ((jGet params "publish").getD (J.bool false))
             then "published" else "draft"))] },
        insertAssignment
          (insertCourse db
            { id := ncid, title := stripCourseSuffix (pyUpper courseStr),
              description := "Course " ++ stripCourseSuffix (pyUpper courseStr),
              teacher_id := uid })
          { id := naid, course_id := ncid, title := titleStr, description := descStr,
            total_points := (jGet params "points").getD (J.num 100),
            status := if truthy ((jGet params "publish").getD (J.bool false))
              then "published" else "draft",
            due_date := now.addDays 7, rubric_markdown := J.null }) := by
    simp only [createAssignment, hcourse, htitle, hdesc, hfoc]
  refine ⟨_, _, hred, rfl, by simp [insertAssignment, insertCourse],
    ⟨{ id := naid, course_id := ncid, title := titleStr, description := descStr,
        total_points := (jGet params "points").getD (J.num 100),
        status := if truthy ((jGet params "publish").getD (J.bool false))
          then "published" else "draft",
        due_date := now.addDays 7, rubric_markdown := J.null },
      by simp [insertAssignment, insertCourse], rfl, rfl, rfl, rfl⟩⟩

/-- C4 (witness): creating a "CS500" assignment for teacher "t9" in an
empty store creates both rows, linked by the fresh course id. -/
theorem C4_witness :
    ∃ r db',
      createAssignment [("title", J.str "HW1"), ("course", J.str "CS500")] "t9"
        "course-1" "asg-1" ⟨0, 10, 0, 0⟩ ⟨[], []⟩ = (r, db') ∧
      r.success = true ∧
      db'.courses = ([] : List Course) ++
        [{ id := "course-1", title := stripCourseSuffix (pyUpper "CS500"),
           description := "Course " ++ stripCourseSuffix (pyUpper "CS500"),
           teacher_id := "t9" }] ∧
      (∃ a, db'.assignments = ([] : List Assignment) ++ [a] ∧ a.id = "asg-1" ∧
        a.course_id = "course-1" ∧ a.title = "HW1" ∧
        a.due_date = DateTime.addDays ⟨0, 10, 0, 0⟩ 7) :=
  C4_create_assignment ⟨[], []⟩ [("title", J.str "HW1"), ("course", J.str "CS500")]
    "t9" "course-1" "asg-1" ⟨0, 10, 0, 0⟩ "CS500" "HW1" "" rfl rfl rfl
    (by intro c hc; simp at hc)

/-! ### Concrete store for the `_find_assignment` examples -/

def courseML : Course :=
  { id := "c-ml", title := "Machine Learning", description := "", teacher_id := "t1" }

def asgHW1 : Assignment :=
  { id := "a-hw1", course_id := "c-ml", title := "HW1", description := "",
    total_points := J.num 100, status := "draft", due_date := ⟨0, 0, 0, 0⟩,
    rubric_markdown := J.null }

def asgHW2 : Assignment :=
  { id := "a-hw2", course_id := "c-ml", title := "HW2", description := "",
    total_points := J.num 100, status := "draft", due_date := ⟨0, 0, 0, 0⟩,
    rubric_markdown := J.null }

def dbML1 : DB := ⟨[courseML], [asgHW1]⟩

def dbML2 : DB := ⟨[courseML], [asgHW1, asgHW2]⟩

/-- C3: `_find_assignment` resolves in order — a strict-UUID identifier
with a matching primary key returns that row; otherwise the first
case-insensitive title-substring match; otherwise, for identifiers
containing "assignment" whose stripped keywords match a course, the first
assignment of that course.  Concretely, "machine learning assignment"
against a course titled "Machine Learning" returns its only assignment,
and with two assignments the first by the underlying result order
(determinism across repeated calls is definitional: the embedding is a
pure function of the store). -/
theorem C3_find_assignment (db : DB) (id : String) (uid : Option String) :
    (∀ a, isUuidFormat id = true → assignmentById db id = some a →
      findAssignment id db uid = some a) ∧
    (∀ a rest, isUuidFormat id = false → assignmentsIlikeSub db id = a :: rest →
      findAssignment id db uid = some a) ∧
    (∀ c a rest, isUuidFormat id = false → assignmentsIlikeSub db id = [] →
      strOccursIn "assignment" (pyLower id) = true → stripAssignmentWords id ≠ "" →
      findCourse (stripAssignmentWords id) db uid = some c →
      assignmentsByCourse db c.id = a :: rest →
      findAssignment id db uid = some a) ∧
    (findAssignment "machine learning assignment" dbML1 (some "t1") = some asgHW1 ∧
      findAssignment "machine learning assignment" dbML2 (some "t1") = some asgHW1) := by
  refine ⟨?_, ?_, ?_, rfl, rfl⟩
  · intro a h1 h2
    simp only [findAssignment, h1, if_true, h2]
  · intro a rest h1 h2
    simp only [findAssignment, h1, Bool.false_eq_true, if_false, h2]
  · intro c a rest h1 h2 h3 h4 h5 h6
    simp only [findAssignment, h1, Bool.false_eq_true, if_false, h2, h3, if_true, h4,
      ne_eq, not_false_eq_true, h5, h6]

/-- A row whose id is a strict UUID, for the C3 witness. -/
def asgByUuid : Assignment :=
  { id := "12345678-1234-1234-1234-123456789abc", course_id := "c-ml", title := "Quiz",
    description := "", total_points := J.num 10, status := "draft",
    due_date := ⟨0, 0, 0, 0⟩, rubric_markdown := J.null }

/-- C3 (witness): the UUID branch of the resolution theorem applied to a
concrete store. -/
theorem C3_witness :
    isUuidFormat "12345678-1234-1234-1234-123456789abc" = true ∧
    assignmentById ⟨[courseML], [asgByUuid]⟩ "12345678-1234-1234-1234-123456789abc"
      = some asgByUuid ∧
    findAssignment "12345678-1234-1234-1234-123456789abc" ⟨[courseML], [asgByUuid]⟩
      (some "t1") = some asgByUuid :=
  ⟨by decide, rfl,
    (C3_find_assignment ⟨[courseML], [asgByUuid]⟩ "12345678-1234-1234-1234-123456789abc"
      (some "t1")).1 asgByUuid (by decide) rfl⟩

/-! ### C1: ownership checks before assignment mutations -/

/-- A store owned entirely by teacher "t1", mutated below by the
non-owner "t2". -/
def courseT1 : Course :=
  { id := "c1", title := "Algorithms", description := "", teacher_id := "t1" }

def asgMidterm : Assignment :=
  { id := "a1", course_id := "c1", title := "Midterm Exam", description := "",
    total_points := J.num 100, status := "draft", due_date := ⟨0, 0, 0, 0⟩,
    rubric_markdown := J.null }

def dbOwned : DB := ⟨[courseT1], [asgMidterm]⟩

/-- C1 (counterexample).  The claim says every mutating assignment
operation — including the publish/unpublish toggle — verifies that the
assignment's course belongs to the requesting teacher before modifying the
row.  But `publish_assignment` resolves the assignment by bare title match
and `_publish_single_assignment` performs no ownership check: teacher "t2"
publishes the assignment of teacher "t1"'s course with a `success = true`
result, and the stored row's status is changed. -/
theorem C1_counterexample :
    (publishAssignment [("assignment_name", J.str "Midterm")] "t2" dbOwned).1.success
      = true ∧
    ((publishAssignment [("assignment_name", J.str "Midterm")] "t2" dbOwned).2.assignments.map
      Assignment.status) = ["published"] ∧
    dbOwned.courses.map Course.teacher_id = ["t1"] ∧
    asgMidterm.course_id = courseT1.id ∧
    ("t1" ≠ "t2") :=
  ⟨rfl, rfl, rfl, rfl, by decide⟩

/-- C1 (amended).  The update, rubric-update and delete paths verify that
the assignment's course belongs to the requesting teacher before the row
is modified and refuse with `success = false` (store unchanged) when it
does not; the publish/unpublish toggle performs no such verification — it
updates the found assignment's status and reports success regardless of
who owns the course. -/
theorem C1_ownership_checks (db : DB) (a : Assignment) (params : Params) (uid : String)
    (parse : List Char → Option DateTime) (now : DateTime) :
    (ownsAssignmentCourse db a uid = false →
      updateSingleAssignment a params uid parse now db =
        ({ success := false,
           message := "You can only update assignments in your own courses.",
           data := J.null }, db) ∧
      deleteSingleAssignment a uid db =
        ({ success := false,
           message := "You can only delete assignments in your own courses.",
           data := J.null }, db)) ∧
    (∀ ident rt, pyOr (jGet params "assignment_id")
        (pyOr (jGet params "assignment_name") (jGet params "title")) = some (J.str ident) →
      ident ≠ "" →
      pyOr (jGet params "rubric_text") (jGet params "rubric") = some rt →
      truthy rt = true →
      findAssignment ident db (some uid) = some a →
      ownsAssignmentCourse db a uid = false →
      updateRubric params uid db =
        ({ success := false,
           message := "You can only update rubrics for assignments in your own courses.",
           data := J.null }, db)) ∧
    (∀ action, 0 < (db.assignments.filter (fun x => x.id = a.id)).length →
      (publishSingleAssignment a action db).1.success = true ∧
      (publishSingleAssignment a action db).2.assignments =
        db.assignments.map (fun x => if x.id = a.id then
          { x with status := if isPublishAction action then "published" else "draft" }
          else x)) := by
  refine ⟨?_, ?_, ?_⟩
  · intro hown
    constructor
    · simp [updateSingleAssignment, hown]
    · simp [deleteSingleAssignment, hown]
  · intro ident rt hident hne hrt hrttruthy hfind hown
    have hid : otruthy (pyOr (jGet params "assignment_id")
        (pyOr (jGet params "assignment_name") (jGet params "title"))) = true := by
      rw [hident]
      simp [otruthy, truthy, hne]
    have hrt2 : otruthy (pyOr (jGet params "rubric_text") (jGet params "rubric")) = true := by
      rw [hrt]
      simp [otruthy, hrttruthy]
    simp only [updateRubric, hid, hrt2, hident, hfind, hown, Bool.not_true, Bool.or_self,
      Bool.false_eq_true, if_false]
    simp [otruthy, truthy, hne]
  · intro action hlen
    constructor
    · simp [publishSingleAssignment, updateAssignmentRow, hlen, Nat.pos_iff_ne_zero]
    · simp [publishSingleAssignment, updateAssignmentRow, hlen]

/-- C1 (witness): the amended theorem applied to the concrete non-owner
scenario (teacher "t2" against the store of teacher "t1"). -/
theorem C1_witness :
    ownsAssignmentCourse dbOwned asgMidterm "t2" = false ∧
    updateSingleAssignment asgMidterm [("points", J.num 50)] "t2" (fun _ => none)
        ⟨0, 0, 0, 0⟩ dbOwned =
      ({ success := false,
         message := "You can only update assignments in your own courses.",
         data := J.null }, dbOwned) ∧
    deleteSingleAssignment asgMidterm "t2" dbOwned =
      ({ success := false,
         message := "You can only delete assignments in your own courses.",
         data := J.null }, dbOwned) ∧
    updateRubric [("assignment_name", J.str "Midterm"), ("rubric", J.str "R")] "t2"
        dbOwned =
      ({ success := false,
         message := "You can only update rubrics for assignments in your own courses.",
         data := J.null }, dbOwned) := by
  have hown : ownsAssignmentCourse dbOwned asgMidterm "t2" = false := rfl
  refine ⟨hown, ?_, ?_, ?_⟩
  · exact ((C1_ownership_checks dbOwned asgMidterm [("points", J.num 50)] "t2"
      (fun _ => none) ⟨0, 0, 0, 0⟩).1 hown).1
  · exact ((C1_ownership_checks dbOwned asgMidterm [("points", J.num 50)] "t2"
      (fun _ => none) ⟨0, 0, 0, 0⟩).1 hown).2
  · exact (C1_ownership_checks dbOwned asgMidterm
      [("assignment_name", J.str "Midterm"), ("rubric", J.str "R")] "t2"
      (fun _ => none) ⟨0, 0, 0, 0⟩).2.1 "Midterm" (J.str "R") rfl (by decide) rfl
      (by decide) rfl hown

/-! ## `elevenlabs_agent.py`: knowledge-base push and agent attachment

The external API is modelled as a state of documents and RAG indexes; the
agent-update call of the attach step is a parameter `update` giving, per
attempt, either success or the raised error's string (the document text
and its JSON construction play no role in the claims and are abstracted
into the document name). -/

def maxRetries : ℕ := 3

def retryDelaySeconds : ℕ := 20

/-- `"502" in error_str or "Bad Gateway" in error_str`. -/
def is502Error (e : String) : Bool :=
  strOccursIn "502" e || strOccursIn "Bad Gateway" e

structure AttachOutcome where
  success : Bool
  attempts : ℕ
  sleeps : List ℕ
deriving DecidableEq, Repr

/-- The retry loop of `_attach_knowledge_base_to_agent` from a given
attempt index: sleep before every retry, stop on success, keep retrying on
502-style errors up to `max_retries`, break immediately on any other
error.  `attempts` counts the update calls made, `sleeps` the delays taken
between them. -/
def attachFrom (update : ℕ → Except String Unit) (attempt : ℕ) : AttachOutcome :=
  if _h : attempt < maxRetries then
    let pre : List ℕ := if 0 < attempt then [retryDelaySeconds] else []
    match update attempt with
    | .ok _ => { success := true, attempts := attempt + 1, sleeps := pre }
    | .error e =>
      if is502Error e then
        if attempt < maxRetries - 1 then
          let rest := attachFrom update (attempt + 1)
          { success := rest.success, attempts := rest.attempts, sleeps := pre ++ rest.sleeps }
        else { success := false, attempts := attempt + 1, sleeps := pre }
      else { success := false, attempts := attempt + 1, sleeps := pre }
  else { success := false, attempts := attempt, sleeps := [] }
termination_by maxRetries - attempt
decreasing_by omega

/-- Embedding of `_attach_knowledge_base_to_agent`. -/
def attachKnowledgeBase (update : ℕ → Except String Unit) : AttachOutcome :=
  attachFrom update 0

structure KBDoc where
  id : String
  name : String
deriving DecidableEq, Repr

structure KBState where
  docs : List KBDoc
  ragIndexes : List (String × String)
deriving DecidableEq, Repr

/-- Step 1: delete every existing RAG index (per-item errors are
swallowed by the Python loop). -/
def deleteExistingRagIndices (st : KBState) : KBState :=
  { st with ragIndexes := [] }

/-- Step 3: `documents.create_from_text` — upload the new document. -/
def createDocument (st : KBState) (docId docName : String) : KBState :=
  { st with docs := st.docs ++ [{ id := docId, name := docName }] }

/-- Step 4: `compute_rag_index` (fire-and-forget; the index id is the
generated `ragId`). -/
def createRagIndex (st : KBState) (docId ragId : String) : KBState :=
  { st with ragIndexes := st.ragIndexes ++ [(docId, ragId)] }

/-- Step 5: delete every knowledge-base document except the new one. -/
def cleanupOldDocuments (st : KBState) (keepId : String) : KBState :=
  { st with docs := st.docs.filter (fun d => d.id = keepId) }

/-- Embedding of `update_knowledge_base`: the step sequence, returning
`True` even when the attach step fails. -/
def updateKnowledgeBase (st : KBState) (newDocId docName ragId : String)
    (update : ℕ → Except String Unit) : Bool × AttachOutcome × KBState :=
  let st1 := deleteExistingRagIndices st
  let st2 := createDocument st1 newDocId docName
  let st3 := createRagIndex st2 newDocId ragId
  let st4 := cleanupOldDocuments st3 newDocId
  let outcome := attachKnowledgeBase update
  (true, outcome, st4)

/-- C7: if the agent attachment fails with a 502 on every try, exactly 3
attempts are made with the fixed 20-second delay between them and the loop
returns `False`; a non-502 failure on the first try aborts after that
single attempt; and in either case the enclosing knowledge-base update
still reports success with the freshly uploaded document present in the
store (no rollback). -/
theorem C7_attach_retry (st : KBState) (newDocId docName ragId : String)
    (update : ℕ → Except String Unit) :
    ((∀ i, ∃ e, update i = Except.error e ∧ is502Error e = true) →
      attachKnowledgeBase update =
        { success := false, attempts := 3, sleeps := [20, 20] }) ∧
    (∀ e, update 0 = Except.error e → is502Error e = false →
      attachKnowledgeBase update = { success := false, attempts := 1, sleeps := [] }) ∧
    ((updateKnowledgeBase st newDocId docName ragId update).1 = true ∧
      (updateKnowledgeBase st newDocId docName ragId update).2.1 =
        attachKnowledgeBase update ∧
      ({ id := newDocId, name := docName } : KBDoc) ∈
        (updateKnowledgeBase st newDocId docName ragId update).2.2.docs) := by
  refine ⟨?_, ?_, rfl, rfl, ?_⟩
  · intro hall
    obtain ⟨e0, h0, h5020⟩ := hall 0
    obtain ⟨e1, h1, h5021⟩ := hall 1
    obtain ⟨e2, h2, h5022⟩ := hall 2
    unfold attachKnowledgeBase
    rw [attachFrom, attachFrom, attachFrom]
    simp [h0, h1, h2, h5020, h5021, h5022, maxRetries, retryDelaySeconds]
  · intro e h0 hnot
    unfold attachKnowledgeBase
    rw [attachFrom]
    simp [h0, hnot, maxRetries]
  · simp [updateKnowledgeBase, cleanupOldDocuments, createRagIndex, createDocument,
      deleteExistingRagIndices, List.mem_filter]

/-- C7 (witness): the retry theorem applied to an update call that always
raises "502 Bad Gateway", against a store holding one old document. -/
theorem C7_witness :
    attachKnowledgeBase (fun _ => Except.error "502 Bad Gateway") =
      { success := false, attempts := 3, sleeps := [20, 20] } ∧
    (updateKnowledgeBase ⟨[⟨"old-doc", "old"⟩], [("old-doc", "rag-0")]⟩ "new-doc" "ctx"
        "rag-1" (fun _ => Except.error "502 Bad Gateway")).1 = true ∧
    ({ id := "new-doc", name := "ctx" } : KBDoc) ∈
      (updateKnowledgeBase ⟨[⟨"old-doc", "old"⟩], [("old-doc", "rag-0")]⟩ "new-doc" "ctx"
        "rag-1" (fun _ => Except.error "502 Bad Gateway")).2.2.docs := by
  have hthm := C7_attach_retry ⟨[⟨"old-doc", "old"⟩], [("old-doc", "rag-0")]⟩ "new-doc"
    "ctx" "rag-1" (fun _ => Except.error "502 Bad Gateway")
  exact ⟨hthm.1 (fun i => ⟨"502 Bad Gateway", rfl, by decide⟩), hthm.2.2.1, hthm.2.2.2.2⟩

end AiTa
